import Mathlib

/-!
Verification development for the dynamic-theme orchestration core
(`src/inject/dynamic-theme/index.ts` of the darkreader repository).

The module-level mutable state of the TypeScript module (the manager
registry, the variable table, the loading set, the watcher handles, the
throttle slot and the listener flags) is embedded as an explicit
`EngineState` record, and every function of the module becomes a pure
state transformer translated statement by statement from the source.
DOM nodes are embedded as records with an identity, a class list and a
text content, and `document.head` as an ordered list of such records;
`insertBefore` / `appendChild` follow the DOM pre-insert semantics
(moving an already-inserted node, and treating a reference node equal to
the inserted node as its next sibling).

External collaborators (the CSS generators of `modify-css`,
`css-filter`, `text-style`, `inline-style`, the style managers of
`style-manager`, and the platform/utility helpers) are not part of the
source under verification; they are modelled from the spec as an `Ext`
record of pure functions and constants, consumed through the same
narrow interface the source uses.
-/

namespace DarkReader

/-- A document element: identity (DOM node identity), class list,
`media` attribute and text content. -/
structure Elem where
  id : Nat
  classes : List String
  media : String
  content : String
deriving DecidableEq, Repr

/-- `parent.querySelector('.cls')`: first element carrying the class. -/
def querySelectorClass (es : List Elem) (cls : String) : Option Elem :=
  es.find? (fun e => e.classes.contains cls)

/-- The ids of the elements of a list, in document order. -/
def elemIds (es : List Elem) : List Nat :=
  es.map (·.id)

/-- Remove the element with the given id (detach a node from its parent). -/
def removeById (es : List Elem) (i : Nat) : List Elem :=
  es.filter (fun e => e.id ≠ i)

/-- Overwrite the text content of the element with the given id. -/
def setContentById (es : List Elem) (i : Nat) (s : String) : List Elem :=
  es.map (fun e => if e.id = i then { e with content := s } else e)

/-- `node.nextSibling`, as an element id. -/
def nextSiblingId : List Elem → Nat → Option Nat
  | [], _ => none
  | e :: rest, i => if e.id = i then rest.head?.map (·.id) else nextSiblingId rest i

/-- `parent.firstChild`, as an element id. -/
def firstChildId (es : List Elem) : Option Nat :=
  es.head?.map (·.id)

/-- Insert `e` directly before the element with id `r` (assumed present). -/
def insertBeforeAux : List Elem → Elem → Nat → List Elem
  | [], e, _ => [e]
  | x :: rest, e, r => if x.id = r then e :: x :: rest else x :: insertBeforeAux rest e r

/-- `parent.insertBefore(e, ref)` with DOM pre-insert semantics: a
reference node equal to `e` itself means `e`'s next sibling; the node is
first detached (a move, never a duplicate); a `null` reference appends. -/
def insertBeforeId (es : List Elem) (e : Elem) (ref : Option Nat) : List Elem :=
  match (if ref = some e.id then nextSiblingId es e.id else ref) with
  | none => removeById es e.id ++ [e]
  | some r =>
    if (elemIds (removeById es e.id)).contains r then
      insertBeforeAux (removeById es e.id) e r
    else removeById es e.id ++ [e]

/-- `parent.appendChild(e)`: detach then append. -/
def appendChildElem (es : List Elem) (e : Elem) : List Elem :=
  removeById es e.id ++ [e]

/-- Number of elements carrying a class. -/
def countClass (es : List Elem) (cls : String) : Nat :=
  es.countP (fun e => e.classes.contains cls)

/-- `document.readyState`. -/
inductive ReadyState where
  | loading
  | interactive
  | complete
deriving DecidableEq, Repr

/-- One token of a CSS value: either literal text or a reference to a
custom property (a `var(...)` occurrence). -/
inductive VarToken where
  | lit (s : String)
  | ref (name : String)
deriving DecidableEq, Repr

/-- A CSS value, as the list of its tokens. -/
abbrev VarValue := List VarToken

/-- The variable table: a JS `Map<string, string>` embedded as an
association list in insertion order. -/
abbrev VarMap := List (String × VarValue)

/-- `map.has(k)`. -/
def mapHas (m : VarMap) (k : String) : Bool :=
  m.any (fun p => p.1 = k)

/-- `map.get(k)`. -/
def mapGet (m : VarMap) (k : String) : Option VarValue :=
  (m.find? (fun p => p.1 = k)).map (·.2)

/-- `map.set(k, v)`: overwrite in place when the key exists (a JS `Map`
keeps the original insertion position), append otherwise. -/
def mapSet (m : VarMap) (k : String) (v : VarValue) : VarMap :=
  if mapHas m k then m.map (fun p => if p.1 = k then (k, v) else p) else m ++ [(k, v)]

/-- The keys of the table in insertion order. -/
def mapKeys (m : VarMap) : List String :=
  m.map (·.1)

/-- Modelled from the spec: `replaceCSSVariables(value, variables)` of
`./css-rules` (not under `src/`) replaces "any variable-reference tokens
inside each value with their current resolved value from the table";
references to unknown variables are left in place. One level of
substitution, no recursion. -/
def replaceCSSVariables (value : VarValue) (table : VarMap) : VarValue :=
  value.foldr
    (fun t acc =>
      match t with
      | VarToken.lit s => VarToken.lit s :: acc
      | VarToken.ref n =>
        match mapGet table n with
        | some v => v ++ acc
        | none => VarToken.ref n :: acc)
    []

/-- The filter configuration fields this module reads
(`FilterConfig` of `../../definitions`). -/
structure FilterConfig where
  mode : Nat
  contrast : Int
  useFont : Bool
  textStroke : Nat
deriving DecidableEq, Repr

/-- The fix-list fields this module reads
(`DynamicThemeFix` of `../../definitions`); `fixes` itself may be `null`. -/
structure DynamicThemeFix where
  invert : List String
deriving DecidableEq, Repr

/-- Modelled from the spec: `clamp(x, min, max)` of `../../utils/math`
(not under `src/`), `Math.min(Math.max(value, min), max)`. -/
def clamp (x lo hi : Int) : Int :=
  min (max x lo) hi

/-- The external collaborators of the module, modelled from the spec
(§6: "Config-to-CSS generators: pure functions mapping (config) → CSS
text", the `OverrideManager` capability set, the platform flag, and the
document's current stylesheet population seen by
`document.querySelectorAll(STYLE_SELECTOR)` / `shouldManageStyle`). -/
structure Ext where
  /-- `getModifiedFallbackStyle(filter, {strict: true})`. -/
  fallbackStrictCSS : String
  /-- `getModifiedFallbackStyle(filter, {strict: false})`. -/
  fallbackNonStrictCSS : String
  /-- `getModifiedUserAgentStyle(filter, isIFrame)`. -/
  userAgentCSS : String
  /-- `createTextStyle(filter)`. -/
  textCSS : String
  /-- `getCSSFilterValue(config)`. -/
  cssFilterValue : FilterConfig → String
  /-- `getInlineOverrideStyle()`. -/
  inlineOverrideCSS : String
  /-- `getSiteOverride(location.host, filter)`. -/
  siteOverrideCSS : String
  /-- `manager.details()` for the manager of a given stylesheet node:
  `null`, or a record whose `variables` map is returned here. -/
  detailsOf : Nat → Option VarMap
  /-- The stylesheet nodes currently matched by
  `document.querySelectorAll(STYLE_SELECTOR)`, in document order. -/
  docStyles : List Nat
  /-- `shouldManageStyle(node)`. -/
  shouldManage : Nat → Bool
  /-- `isFirefox()`. -/
  isFirefox : Bool

/-- The per-node manager record the registry stores: the stylesheet
node and the loading token minted for it by `createManager`. -/
structure Manager where
  elemId : Nat
  token : Nat
deriving DecidableEq, Repr

/-- The module-level mutable state of `index.ts`, made explicit:
document pieces the module touches, and every module variable. -/
structure EngineState where
  /-- `document.head` exists. -/
  hasHead : Bool
  /-- Children of `document.head`, in order (empty while `hasHead = false`). -/
  headElems : List Elem
  /-- Engine-relevant elements outside the head (the pre-head fallback
  appended to `document.documentElement`). -/
  rootElems : List Elem
  /-- Fresh DOM node identity supply. -/
  nextElemId : Nat
  /-- `document.readyState` (environment-controlled). -/
  readyState : ReadyState
  /-- `document.hidden` (environment-controlled). -/
  hidden : Bool
  /-- `styleManagers: Map<node, StyleManager>` (insertion order). -/
  styleManagers : List (Nat × Manager)
  /-- `variables: Map<string, string>` (the shared variable table; the
  source's module variable is named `variables`, a reserved word here). -/
  varTable : VarMap
  /-- `loadingStylesCounter`. -/
  loadingStylesCounter : Nat
  /-- `loadingStyles: Set` (insertion order). -/
  loadingStyles : List Nat
  /-- `stylePositionWatchers: Map<alias, watcher>`: the aliases with an
  active position watcher. -/
  stylePositionWatchers : List String
  /-- `documentVisibilityListener` is non-null. -/
  visibilityListener : Bool
  /-- The throttle slot of `throttledRenderAllStyles` holds a pending call. -/
  pendingRender : Bool
  /-- The pending throttled call carries the fallback-clean callback. -/
  pendingCallback : Bool
  /-- `watchForStyleChanges` is armed. -/
  styleChangeWatching : Bool
  /-- `watchForInlineStyles` is armed. -/
  inlineWatching : Bool
  /-- The `readystatechange` listener is registered. -/
  readyListener : Bool
  /-- The head-creation `MutationObserver` is armed. -/
  headObserver : Bool
  /-- The `modify-css` modification cache is non-empty (external cache,
  cleared by `cleanModificationCache`). -/
  modificationCacheFull : Bool
  /-- Log of stylesheet nodes whose manager got `destroy()`ed. -/
  destroyedLog : List Nat
deriving DecidableEq, Repr

/-- The whole document in document order (head children precede the
siblings of the head under the root). -/
def docElems (st : EngineState) : List Elem :=
  st.headElems ++ st.rootElems

/-- Overwrite the text content of a node found anywhere in the document. -/
def docSetContentById (st : EngineState) (i : Nat) (s : String) : EngineState :=
  { st with
    headElems := setContentById st.headElems i s
    rootElems := setContentById st.rootElems i s }

/-- A freshly created `style` element: `document.createElement('style')`
followed by the two `classList.add` calls and `style.media = 'screen'`. -/
def freshStyleElem (st : EngineState) (className : String) : Elem :=
  { id := st.nextElemId
    classes := ["darkreader", className]
    media := "screen"
    content := "" }

/-- `createOrUpdateStyle(className)`: reuse the head's element with the
class, or create a fresh `style` element tagged `darkreader` + the class
with `media = 'screen'`. -/
def createOrUpdateStyle (st : EngineState) (className : String) : Elem × EngineState :=
  match querySelectorClass st.headElems className with
  | some style => (style, st)
  | none => (freshStyleElem st className, { st with nextElemId := st.nextElemId + 1 })

/-- `setupStylePositionWatcher(node, alias)`: stop a previous watcher
for the alias and store a new one (keyed by alias, insertion order). -/
def setupStylePositionWatcher (st : EngineState) (aliasName : String) : EngineState :=
  { st with
    stylePositionWatchers :=
      if st.stylePositionWatchers.contains aliasName then st.stylePositionWatchers
      else st.stylePositionWatchers ++ [aliasName] }

/-- `stopStylePositionWatchers()`. -/
def stopStylePositionWatchers (st : EngineState) : EngineState :=
  { st with stylePositionWatchers := [] }

/-- One sentinel of `createStaticStyleOverrides()`:
`createOrUpdateStyle(cls)`, `insertBefore(style, ref)` (`appendChild` is
insertion with a `null` reference node), `style.textContent = content`,
`setupStylePositionWatcher(style, alias)`. The reference node is
evaluated by the caller right before the insertion, as in the source. -/
def placeSentinel (st : EngineState) (cls : String) (ref : Option Nat)
    (content : String) (aliasName : String) : Elem × EngineState :=
  let (style, st) := createOrUpdateStyle st cls
  let st := { st with headElems := insertBeforeId st.headElems style ref }
  let st := { st with headElems := setContentById st.headElems style.id content }
  (style, setupStylePositionWatcher st aliasName)

/-- The `textStyle.textContent` branch of the source. -/
def textStyleContent (ext : Ext) (filter : FilterConfig) : String :=
  if filter.useFont || filter.textStroke > 0 then ext.textCSS else ""

/-- The `invertStyle.textContent` branch of the source, including the
contrast adjustment passed to `getCSSFilterValue`. -/
def invertStyleContent (ext : Ext) (filter : FilterConfig)
    (fixes : Option DynamicThemeFix) : String :=
  match fixes with
  | some fx =>
    if fx.invert.length > 0 then
      String.intercalate ", " fx.invert ++ " \x7b\n    filter: " ++
        ext.cssFilterValue
          { filter with
            contrast :=
              if filter.mode = 0 then filter.contrast
              else clamp (filter.contrast - 10) 0 100 } ++
        " !important;\n\x7d"
    else ""
  | none => ""

/-- The fallback block of `createStaticStyleOverrides` (inserted before
`document.head.firstChild`). -/
def staticFallback (ext : Ext) (st : EngineState) : Elem × EngineState :=
  placeSentinel st "darkreader--fallback" (firstChildId st.headElems)
    ext.fallbackStrictCSS "fallback"

/-- The user-agent block (inserted before `fallbackStyle.nextSibling`). -/
def staticUserAgent (ext : Ext) (fallbackStyle : Elem) (st : EngineState) :
    Elem × EngineState :=
  placeSentinel st "darkreader--user-agent" (nextSiblingId st.headElems fallbackStyle.id)
    ext.userAgentCSS "user-agent"

/-- The text block: the source inserts it before `fallbackStyle.nextSibling`
as well. -/
def staticText (ext : Ext) (filter : FilterConfig) (fallbackStyle : Elem)
    (st : EngineState) : Elem × EngineState :=
  placeSentinel st "darkreader--text" (nextSiblingId st.headElems fallbackStyle.id)
    (textStyleContent ext filter) "text"

/-- The invert block (inserted before `textStyle.nextSibling`). -/
def staticInvert (ext : Ext) (filter : FilterConfig) (fixes : Option DynamicThemeFix)
    (textStyle : Elem) (st : EngineState) : Elem × EngineState :=
  placeSentinel st "darkreader--invert" (nextSiblingId st.headElems textStyle.id)
    (invertStyleContent ext filter fixes) "invert"

/-- The inline block (inserted before `invertStyle.nextSibling`). -/
def staticInline (ext : Ext) (invertStyle : Elem) (st : EngineState) :
    Elem × EngineState :=
  placeSentinel st "darkreader--inline" (nextSiblingId st.headElems invertStyle.id)
    ext.inlineOverrideCSS "inline"

/-- The override block (`appendChild`, an insertion with a `null`
reference node). -/
def staticOverride (ext : Ext) (st : EngineState) : Elem × EngineState :=
  placeSentinel st "darkreader--override" none ext.siteOverrideCSS "override"

/-- `createStaticStyleOverrides()`, statement by statement from the
source: six sentinels created-or-reused, inserted, filled, watched.
The source inserts the text sentinel before `fallbackStyle.nextSibling`
and the override sentinel via `appendChild`. -/
def createStaticStyleOverrides (ext : Ext) (filter : FilterConfig)
    (fixes : Option DynamicThemeFix) (st : EngineState) : EngineState :=
  let p1 := staticFallback ext st
  let p2 := staticUserAgent ext p1.1 p1.2
  let p3 := staticText ext filter p1.1 p2.2
  let p4 := staticInvert ext filter fixes p3.1 p3.2
  let p5 := staticInline ext p4.1 p4.2
  (staticOverride ext p5.2).2

/-- `cleanFallbackStyle()`: head-scoped lookup, existence-checked. -/
def cleanFallbackStyle (st : EngineState) : EngineState :=
  match querySelectorClass st.headElems "darkreader--fallback" with
  | some fallback => { st with headElems := setContentById st.headElems fallback.id "" }
  | none => st

/-- `updateVariables(newVars)`: no-op when empty; otherwise merge every
new entry (overwriting existing keys), then one substitution pass over
every entry of the table, each step reading the table as already
rewritten by the previous steps (a JS `Map.forEach` with live `set`s). -/
def updateVariables (newVars : VarMap) (table : VarMap) : VarMap :=
  if newVars.length = 0 then table
  else
    let merged := newVars.foldl (fun acc p => mapSet acc p.1 p.2) table
    (mapKeys merged).foldl
      (fun acc k =>
        match mapGet acc k with
        | some v => mapSet acc k (replaceCSSVariables v acc)
        | none => acc)
      merged

/-- `isPageLoaded()`. -/
def isPageLoaded (st : EngineState) : Bool :=
  st.readyState = ReadyState.complete || st.readyState = ReadyState.interactive

/-- `Set.add`: insertion-ordered, idempotent. -/
def setAdd (s : List Nat) (t : Nat) : List Nat :=
  if s.contains t then s else s ++ [t]

/-- The `loadingStart` callback minted for token `token` by
`createManager`. The source looks the fallback sentinel up with a
document-wide query and dereferences it without an existence check:
an absent sentinel is a thrown `TypeError`, embedded as `none`. -/
def loadingStart (ext : Ext) (token : Nat) (st : EngineState) : Option EngineState :=
  if isPageLoaded st then some st
  else
    let st := { st with loadingStyles := setAdd st.loadingStyles token }
    match querySelectorClass (docElems st) "darkreader--fallback" with
    | none => none
    | some fallbackStyle =>
      some
        (if fallbackStyle.content = "" then
          docSetContentById st fallbackStyle.id ext.fallbackNonStrictCSS
        else st)

/-- The `loadingEnd` callback minted for token `token`: remove the
token; when the set became empty and the page is loaded, clean the
fallback sentinel. -/
def loadingEnd (token : Nat) (st : EngineState) : EngineState :=
  let st := { st with loadingStyles := st.loadingStyles.filter (fun t => t ≠ token) }
  if st.loadingStyles.isEmpty && isPageLoaded st then cleanFallbackStyle st else st

/-- `onReadyStateChange()`: once loaded, deregister itself and run the
fallback-clean check. -/
def onReadyStateChange (st : EngineState) : EngineState :=
  if !isPageLoaded st then st
  else
    let st := { st with readyListener := false }
    if st.loadingStyles.isEmpty then cleanFallbackStyle st else st

/-- `Map.get` on an insertion-ordered association list. -/
def lookupKey (l : List (Nat × Manager)) (k : Nat) : Option Manager :=
  (l.find? (fun p => p.1 = k)).map (·.2)

/-- `styleManagers.has(element)` / `styleManagers.get(element)`. -/
def managerFor (st : EngineState) (el : Nat) : Option Manager :=
  lookupKey st.styleManagers el

/-- `createManager(element)`: guarded by map membership; mints a fresh
loading token by incrementing the module-wide counter, constructs the
manager and stores it. -/
def createManager (el : Nat) (st : EngineState) : EngineState :=
  if (managerFor st el).isSome then st
  else
    let loadingStyleId := st.loadingStylesCounter + 1
    { st with
      loadingStylesCounter := loadingStyleId
      styleManagers := st.styleManagers ++ [(el, { elemId := el, token := loadingStyleId })] }

/-- `removeManager(element)`: when present, destroy and delete; else no-op. -/
def removeManager (el : Nat) (st : EngineState) : EngineState :=
  match managerFor st el with
  | some _ =>
    { st with
      destroyedLog := st.destroyedLog ++ [el]
      styleManagers := st.styleManagers.filter (fun p => p.1 ≠ el) }
  | none => st

/-- `cancelRendering()` / `throttledRenderAllStyles.cancel()`. -/
def cancelRendering (st : EngineState) : EngineState :=
  { st with pendingRender := false, pendingCallback := false }

/-- The sweep's candidate list:
`Array.from(document.querySelectorAll(STYLE_SELECTOR)).filter((style) =>
!styleManagers.has(style) && shouldManageStyle(style))`. -/
def eligibleStyles (ext : Ext) (st : EngineState) : List Nat :=
  ext.docStyles.filter (fun s => !(managerFor st s).isSome && ext.shouldManage s)

/-- The merge-discovered-variables fold: each element of `newVariables`
goes through `updateVariables`. -/
def foldUpdateVariables (l : List VarMap) (st : EngineState) : EngineState :=
  l.foldl (fun acc vars => { acc with varTable := updateVariables vars acc.varTable }) st

/-- `createDynamicStyleOverrides()`: the full sweep. Rendering a manager
mutates only that manager's own style, never the module state, so the
render calls leave no trace here beyond the throttle slot; the
`manager.watch()` calls and `overrideInlineStyles(filter)` live in the
collaborators. -/
def createDynamicStyleOverrides (ext : Ext) (st : EngineState) : EngineState :=
  let st1 := cancelRendering st
  let eligible := eligibleStyles ext st1
  let st2 := eligible.foldl (fun acc s => createManager s acc) st1
  let newVariables :=
    (eligible.filterMap ext.detailsOf).filter (fun vars => vars.length > 0)
  if newVariables.isEmpty then
    if st2.loadingStyles.isEmpty then cleanFallbackStyle st2 else st2
  else
    let st3 := foldUpdateVariables newVariables st2
    { st3 with pendingRender := true, pendingCallback := true }

/-- Arming the three live watchers of `watchForUpdates()` (the structural
callback itself is `handleStyleChanges` below). -/
def watchForUpdates (st : EngineState) : EngineState :=
  { st with styleChangeWatching := true, inlineWatching := true, readyListener := true }

/-- The callback `watchForUpdates` hands to `watchForStyleChanges`, for
one structural batch `{created, updated, removed}`: moved styles
(present in both `removed` and `created`) are exempt from manager
removal, and creation is guarded by registry membership. -/
def handleStyleChanges (ext : Ext) (st : EngineState)
    (created updated removed : List Nat) : EngineState :=
  let movedStyles := removed.filter (fun s => created.contains s)
  let st1 :=
    (removed.filter (fun s => !movedStyles.contains s)).foldl
      (fun acc s => removeManager s acc) st
  let newOnes :=
    ((created ++ updated).eraseDups).filter (fun s => !(managerFor st1 s).isSome)
  let st2 := newOnes.foldl (fun acc s => createManager s acc) st1
  let newVariables :=
    (newOnes.filterMap ext.detailsOf).filter (fun vars => vars.length > 0)
  if newVariables.isEmpty then st2
  else
    let st3 := foldUpdateVariables newVariables st2
    { st3 with pendingRender := true, pendingCallback := false }

/-- `watchForDocumentVisibility(callback)`: store the listener (the
callback is fixed at the one call site). -/
def watchForDocumentVisibility (st : EngineState) : EngineState :=
  { st with visibilityListener := true }

/-- `stopWatchingForDocumentVisibility()`. -/
def stopWatchingForDocumentVisibility (st : EngineState) : EngineState :=
  { st with visibilityListener := false }

/-- `createThemeAndWatchForUpdates()`: static overrides first, then
either defer the sweep and the watchers behind the visibility listener
(document hidden) or run them directly. -/
def createThemeAndWatchForUpdates (ext : Ext) (filter : FilterConfig)
    (fixes : Option DynamicThemeFix) (st : EngineState) : EngineState :=
  let st := createStaticStyleOverrides ext filter fixes st
  if st.hidden then watchForDocumentVisibility st
  else watchForUpdates (createDynamicStyleOverrides ext st)

/-- Delivery of one `visibilitychange` event: the environment updates
`document.hidden`; the registered listener (when any) deregisters itself
and only then runs the deferred sweep + watcher arming. -/
def visibilityChangeEvent (ext : Ext) (st : EngineState) (hiddenNow : Bool) : EngineState :=
  let st := { st with hidden := hiddenNow }
  if st.visibilityListener then
    if !hiddenNow then
      let st := stopWatchingForDocumentVisibility st
      watchForUpdates (createDynamicStyleOverrides ext st)
    else st
  else st

/-- `createOrUpdateDynamicTheme(filter, fixes, isIFrame)`: with a head,
activate; without one, pre-seed the fallback outside Firefox and arm the
head observer. -/
def createOrUpdateDynamicTheme (ext : Ext) (filter : FilterConfig)
    (fixes : Option DynamicThemeFix) (st : EngineState) : EngineState :=
  if st.hasHead then createThemeAndWatchForUpdates ext filter fixes st
  else
    let st :=
      if !ext.isFirefox then
        let (fallbackStyle, st) := createOrUpdateStyle st "darkreader--fallback"
        let st := { st with rootElems := appendChildElem st.rootElems fallbackStyle }
        { st with rootElems := setContentById st.rootElems fallbackStyle.id ext.fallbackStrictCSS }
      else st
    { st with headObserver := true }

/-- `stopWatchingForUpdates()`: pause managers (manager-internal),
stop position watchers, disconnect both watchers, drop the readiness
listener. -/
def stopWatchingForUpdates (st : EngineState) : EngineState :=
  let st := stopStylePositionWatchers st
  { st with styleChangeWatching := false, inlineWatching := false, readyListener := false }

/-- `cleanDynamicThemeCache()`. -/
def cleanDynamicThemeCache (st : EngineState) : EngineState :=
  let st := stopWatchingForDocumentVisibility st
  let st := cancelRendering st
  let st := stopWatchingForUpdates st
  { st with modificationCacheFull := false }

/-- `removeNode(node)` of `../utils/dom` applied to the first match of a
class inside a list: null-checked, detaches when found. -/
def removeFirstClass (es : List Elem) (cls : String) : List Elem :=
  match querySelectorClass es cls with
  | some e => removeById es e.id
  | none => es

/-- `removeNode(document.querySelector(cls))`: document-wide first match. -/
def docRemoveFirstClass (st : EngineState) (cls : String) : EngineState :=
  match querySelectorClass (docElems st) cls with
  | some e =>
    { st with
      headElems := removeById st.headElems e.id
      rootElems := removeById st.rootElems e.id }
  | none => st

/-- The `if (document.head)` block of `removeDynamicTheme()`: the five
head-scoped sentinel removals, each through null-checked `removeNode`. -/
def removeSentinelsFromHead (st : EngineState) : EngineState :=
  if st.hasHead then
    { st with
      headElems :=
        removeFirstClass
          (removeFirstClass
            (removeFirstClass
              (removeFirstClass
                (removeFirstClass st.headElems "darkreader--user-agent")
                "darkreader--text")
              "darkreader--invert")
            "darkreader--inline")
          "darkreader--override" }
  else st

/-- `removeDynamicTheme()`: full teardown. -/
def removeDynamicTheme (st : EngineState) : EngineState :=
  let s1 := cleanDynamicThemeCache st
  let s2 := docRemoveFirstClass s1 "darkreader--fallback"
  let s3 := removeSentinelsFromHead s2
  let s4 := (s3.styleManagers.map (·.1)).foldl (fun acc el => removeManager el acc) s3
  { s4 with
    headElems := s4.headElems.filter (fun e => !e.classes.contains "darkreader")
    rootElems := s4.rootElems.filter (fun e => !e.classes.contains "darkreader") }

/-- The per-sentinel class markers of the head's engine-owned elements,
in document order. -/
def sentinelClasses (es : List Elem) : List String :=
  (es.filter (fun e => e.classes.contains "darkreader")).filterMap
    (fun e => e.classes.find? (fun c => c ≠ "darkreader"))

/-- The events of the loading/fallback gating subsystem: the
`loadingStart`/`loadingEnd` callbacks of a manager firing for its token,
and the environment moving `document.readyState` (which triggers the
registered `readystatechange` listener). -/
inductive LoadEvent where
  | start (token : Nat)
  | finish (token : Nat)
  | ready (rs : ReadyState)
deriving DecidableEq, Repr

/-- One step of the loading/fallback gating subsystem; `none` is a
thrown exception (the unchecked dereference inside `loadingStart`). -/
def loadStep (ext : Ext) (st : EngineState) : LoadEvent → Option EngineState
  | LoadEvent.start token => loadingStart ext token st
  | LoadEvent.finish token => some (loadingEnd token st)
  | LoadEvent.ready rs =>
    let st := { st with readyState := rs }
    some (if st.readyListener then onReadyStateChange st else st)

/-- The text content of the head's fallback sentinel, when present. -/
def fallbackContent (st : EngineState) : Option String :=
  (querySelectorClass st.headElems "darkreader--fallback").map (·.content)

/-- A sample population of external collaborators: two eligible
stylesheets, one of which carries a discovered variable. -/
def sampleExt : Ext :=
  { fallbackStrictCSS := "html e1"
    fallbackNonStrictCSS := "html e2"
    userAgentCSS := "html e3"
    textCSS := "html e4"
    cssFilterValue := fun _ => "invert(100%) hue-rotate(180deg)"
    inlineOverrideCSS := "inline e5"
    siteOverrideCSS := "site e6"
    detailsOf := fun i =>
      if i = 11 then some [("--x", [VarToken.lit "1px"])]
      else if i = 10 then some [] else none
    docStyles := [10, 11]
    shouldManage := fun i => i = 10 || i = 11
    isFirefox := false }

/-- A sample filter configuration. -/
def sampleFilter : FilterConfig :=
  { mode := 1, contrast := 50, useFont := false, textStroke := 0 }

/-- The initial engine state: a present, empty head; fresh ids start
past the stylesheet-node ids used by `sampleExt`; all module variables
at their initial values. -/
def initState : EngineState :=
  { hasHead := true, headElems := [], rootElems := [], nextElemId := 100
    readyState := ReadyState.loading, hidden := false
    styleManagers := [], varTable := [], loadingStylesCounter := 0, loadingStyles := []
    stylePositionWatchers := [], visibilityListener := false
    pendingRender := false, pendingCallback := false
    styleChangeWatching := false, inlineWatching := false, readyListener := false
    headObserver := false, modificationCacheFull := false, destroyedLog := [] }

/-- Well-formedness of the document piece the module owns: head children
have pairwise-distinct identities, and the fresh-id supply is ahead of
every existing head id. -/
def idsOK (st : EngineState) : Prop :=
  (elemIds st.headElems).Nodup ∧ ∀ i ∈ elemIds st.headElems, i < st.nextElemId

/-- The registry never holds two managers for the same stylesheet node. -/
def registryNodup (st : EngineState) : Prop :=
  (st.styleManagers.map (·.1)).Nodup

/-- Loading-token sanity: every stored token was minted by the counter,
and no two managers share a token. -/
def tokensOK (st : EngineState) : Prop :=
  (∀ p ∈ st.styleManagers, p.2.token ≤ st.loadingStylesCounter) ∧
    (st.styleManagers.map (·.2.token)).Nodup

/-- A state with no engine-tagged element anywhere and no manager:
the theme is inactive. -/
def inactive (st : EngineState) : Prop :=
  (∀ e ∈ docElems st, ∀ c ∈ e.classes, c ≠ "darkreader" ∧
    c ≠ "darkreader--fallback" ∧ c ≠ "darkreader--user-agent" ∧
    c ≠ "darkreader--text" ∧ c ≠ "darkreader--invert" ∧
    c ≠ "darkreader--inline" ∧ c ≠ "darkreader--override") ∧
  st.styleManagers = []

/-- A concrete fallback sentinel element, as the engine creates it. -/
def fbElem : Elem :=
  { id := 0, classes := ["darkreader", "darkreader--fallback"], media := "screen"
    content := "html e1" }

/-- A state with a populated fallback sentinel and one outstanding
loading token, document still loading. -/
def loadState1 : EngineState :=
  { initState with headElems := [fbElem], loadingStyles := [7] }

/-- Same, with the document already loaded. -/
def loadState2 : EngineState :=
  { initState with
    headElems := [fbElem]
    loadingStyles := [7]
    readyState := ReadyState.complete }

/-- Two outstanding tokens, document still loading. -/
def loadState3 : EngineState :=
  { initState with headElems := [fbElem], loadingStyles := [7, 8] }

/-- Empty fallback sentinel, no tokens, document still loading. -/
def loadState4 : EngineState :=
  { initState with headElems := [{ fbElem with content := "" }] }

/-- Populated fallback, no tokens, readiness listener armed, loading. -/
def loadState5 : EngineState :=
  { initState with headElems := [fbElem], readyListener := true }

/-- The state reached from `loadState4` by `loadingStart` for token 3. -/
def startedState : EngineState :=
  (loadStep sampleExt loadState4 (LoadEvent.start 3)).getD initState

/-- The state reached from `loadState5` by the readiness change to
`interactive`. -/
def readiedState : EngineState :=
  (loadStep sampleExt loadState5 (LoadEvent.ready ReadyState.interactive)).getD initState

/-- One full sample activation. -/
def sampleActiveState : EngineState :=
  createOrUpdateDynamicTheme sampleExt sampleFilter none initState

/-- A collaborator population like `sampleExt` whose stylesheets carry
no variables: the activation sweep then takes its immediate
no-new-variables branch. -/
def plainExt : Ext :=
  { sampleExt with detailsOf := fun _ => none }

/-! ## List-level lemmas about the DOM embedding -/

theorem insertBeforeAux_perm (l : List Elem) (e : Elem) (r : Nat) :
    List.Perm (insertBeforeAux l e r) (e :: l) := by
  induction l with
  | nil => simp [insertBeforeAux]
  | cons x t ih =>
    simp only [insertBeforeAux]
    split
    · exact List.Perm.refl _
    · exact (ih.cons x).trans (List.Perm.swap e x t)

theorem insertBeforeId_perm (es : List Elem) (e : Elem) (ref : Option Nat) :
    List.Perm (insertBeforeId es e ref) (e :: removeById es e.id) := by
  unfold insertBeforeId
  split
  · exact List.perm_append_singleton e _
  · split
    · exact insertBeforeAux_perm _ e _
    · exact List.perm_append_singleton e _

theorem removeById_of_not_mem {es : List Elem} {i : Nat} (h : i ∉ elemIds es) :
    removeById es i = es := by
  refine List.filter_eq_self.mpr (fun e he => ?_)
  have : e.id ∈ elemIds es := List.mem_map_of_mem (·.id) he
  simp only [decide_eq_true_eq]
  exact fun hc => h (hc ▸ this)

theorem cons_removeById_perm {es : List Elem} {e : Elem}
    (hnd : (elemIds es).Nodup) (he : e ∈ es) : List.Perm (e :: removeById es e.id) es := by
  induction es with
  | nil => cases he
  | cons x t ih =>
    have hnd2 : (x.id :: elemIds t).Nodup := hnd
    have hx : x.id ∉ elemIds t := (List.nodup_cons.mp hnd2).1
    have hndt : (elemIds t).Nodup := (List.nodup_cons.mp hnd2).2
    rcases List.mem_cons.mp he with rfl | he
    · have h1 : removeById (e :: t) e.id = removeById t e.id := by
        simp [removeById, List.filter_cons]
      rw [h1, removeById_of_not_mem hx]
    · have hxe : x.id ≠ e.id := by
        have h2 : e.id ∈ elemIds t := List.mem_map_of_mem (·.id) he
        exact fun hc => hx (hc ▸ h2)
      have h3 : removeById (x :: t) e.id = x :: removeById t e.id := by
        simp [removeById, List.filter_cons, hxe]
      rw [h3]
      exact (List.Perm.swap x e _).trans ((ih hndt he).cons x)

theorem insertBeforeId_perm_of_mem {es : List Elem} {e : Elem} (ref : Option Nat)
    (hnd : (elemIds es).Nodup) (he : e ∈ es) : List.Perm (insertBeforeId es e ref) es :=
  (insertBeforeId_perm es e ref).trans (cons_removeById_perm hnd he)

theorem insertBeforeId_perm_fresh {es : List Elem} {e : Elem} (ref : Option Nat)
    (h : e.id ∉ elemIds es) : List.Perm (insertBeforeId es e ref) (e :: es) := by
  have := insertBeforeId_perm es e ref
  rwa [removeById_of_not_mem h] at this

theorem appendChildElem_eq_insertBeforeId_none (es : List Elem) (e : Elem) :
    appendChildElem es e = insertBeforeId es e none := by
  simp [appendChildElem, insertBeforeId]

theorem countClass_perm {es es2 : List Elem} (h : List.Perm es es2) (c : String) :
    countClass es c = countClass es2 c :=
  h.countP_eq _

@[simp] theorem countClass_setContentById (es : List Elem) (i : Nat) (s c : String) :
    countClass (setContentById es i s) c = countClass es c := by
  unfold countClass setContentById
  rw [List.countP_map]
  refine List.countP_congr (fun e _ => ?_)
  by_cases h : e.id = i <;> simp [h, Function.comp]

@[simp] theorem elemIds_setContentById (es : List Elem) (i : Nat) (s : String) :
    elemIds (setContentById es i s) = elemIds es := by
  unfold elemIds setContentById
  rw [List.map_map]
  refine List.map_congr_left (fun e _ => ?_)
  by_cases h : e.id = i <;> simp [h, Function.comp]

theorem countClass_cons (e : Elem) (es : List Elem) (c : String) :
    countClass (e :: es) c =
      countClass es c + (if e.classes.contains c then 1 else 0) := by
  unfold countClass
  exact List.countP_cons _ _ _

theorem querySelectorClass_isSome_iff (es : List Elem) (c : String) :
    (querySelectorClass es c).isSome ↔ 0 < countClass es c := by
  unfold querySelectorClass countClass
  rw [List.find?_isSome, List.countP_pos_iff]

theorem querySelectorClass_mem {es : List Elem} {c : String} {e : Elem}
    (h : querySelectorClass es c = some e) : e ∈ es ∧ e.classes.contains c := by
  have h2 : es.find? (fun x => x.classes.contains c) = some e := h
  exact ⟨List.mem_of_find?_eq_some h2, by simpa using List.find?_some h2⟩

/-! ## Lemmas about `placeSentinel` -/

theorem placeSentinel_shape (st : EngineState) (cls : String) (ref : Option Nat)
    (content a : String) :
    ∃ hd n w, (placeSentinel st cls ref content a).2 =
      { st with headElems := hd, nextElemId := n, stylePositionWatchers := w } := by
  unfold placeSentinel createOrUpdateStyle setupStylePositionWatcher
  cases h : querySelectorClass st.headElems cls
  · exact ⟨_, _, _, rfl⟩
  · exact ⟨_, _, _, rfl⟩

@[simp] theorem placeSentinel_styleManagers (st : EngineState) (cls : String)
    (ref : Option Nat) (content a : String) :
    (placeSentinel st cls ref content a).2.styleManagers = st.styleManagers := by
  obtain ⟨hd, n, w, h⟩ := placeSentinel_shape st cls ref content a
  rw [h]

@[simp] theorem placeSentinel_varTable (st : EngineState) (cls : String)
    (ref : Option Nat) (content a : String) :
    (placeSentinel st cls ref content a).2.varTable = st.varTable := by
  obtain ⟨hd, n, w, h⟩ := placeSentinel_shape st cls ref content a
  rw [h]

@[simp] theorem placeSentinel_loadingStyles (st : EngineState) (cls : String)
    (ref : Option Nat) (content a : String) :
    (placeSentinel st cls ref content a).2.loadingStyles = st.loadingStyles := by
  obtain ⟨hd, n, w, h⟩ := placeSentinel_shape st cls ref content a
  rw [h]

@[simp] theorem placeSentinel_loadingStylesCounter (st : EngineState) (cls : String)
    (ref : Option Nat) (content a : String) :
    (placeSentinel st cls ref content a).2.loadingStylesCounter = st.loadingStylesCounter := by
  obtain ⟨hd, n, w, h⟩ := placeSentinel_shape st cls ref content a
  rw [h]

@[simp] theorem placeSentinel_destroyedLog (st : EngineState) (cls : String)
    (ref : Option Nat) (content a : String) :
    (placeSentinel st cls ref content a).2.destroyedLog = st.destroyedLog := by
  obtain ⟨hd, n, w, h⟩ := placeSentinel_shape st cls ref content a
  rw [h]

@[simp] theorem placeSentinel_rootElems (st : EngineState) (cls : String)
    (ref : Option Nat) (content a : String) :
    (placeSentinel st cls ref content a).2.rootElems = st.rootElems := by
  obtain ⟨hd, n, w, h⟩ := placeSentinel_shape st cls ref content a
  rw [h]

@[simp] theorem placeSentinel_hasHead (st : EngineState) (cls : String)
    (ref : Option Nat) (content a : String) :
    (placeSentinel st cls ref content a).2.hasHead = st.hasHead := by
  obtain ⟨hd, n, w, h⟩ := placeSentinel_shape st cls ref content a
  rw [h]

@[simp] theorem placeSentinel_hidden (st : EngineState) (cls : String)
    (ref : Option Nat) (content a : String) :
    (placeSentinel st cls ref content a).2.hidden = st.hidden := by
  obtain ⟨hd, n, w, h⟩ := placeSentinel_shape st cls ref content a
  rw [h]

@[simp] theorem placeSentinel_readyState (st : EngineState) (cls : String)
    (ref : Option Nat) (content a : String) :
    (placeSentinel st cls ref content a).2.readyState = st.readyState := by
  obtain ⟨hd, n, w, h⟩ := placeSentinel_shape st cls ref content a
  rw [h]

@[simp] theorem placeSentinel_visibilityListener (st : EngineState) (cls : String)
    (ref : Option Nat) (content a : String) :
    (placeSentinel st cls ref content a).2.visibilityListener = st.visibilityListener := by
  obtain ⟨hd, n, w, h⟩ := placeSentinel_shape st cls ref content a
  rw [h]

@[simp] theorem placeSentinel_styleChangeWatching (st : EngineState) (cls : String)
    (ref : Option Nat) (content a : String) :
    (placeSentinel st cls ref content a).2.styleChangeWatching = st.styleChangeWatching := by
  obtain ⟨hd, n, w, h⟩ := placeSentinel_shape st cls ref content a
  rw [h]

@[simp] theorem placeSentinel_inlineWatching (st : EngineState) (cls : String)
    (ref : Option Nat) (content a : String) :
    (placeSentinel st cls ref content a).2.inlineWatching = st.inlineWatching := by
  obtain ⟨hd, n, w, h⟩ := placeSentinel_shape st cls ref content a
  rw [h]

@[simp] theorem placeSentinel_readyListener (st : EngineState) (cls : String)
    (ref : Option Nat) (content a : String) :
    (placeSentinel st cls ref content a).2.readyListener = st.readyListener := by
  obtain ⟨hd, n, w, h⟩ := placeSentinel_shape st cls ref content a
  rw [h]

@[simp] theorem placeSentinel_pendingRender (st : EngineState) (cls : String)
    (ref : Option Nat) (content a : String) :
    (placeSentinel st cls ref content a).2.pendingRender = st.pendingRender := by
  obtain ⟨hd, n, w, h⟩ := placeSentinel_shape st cls ref content a
  rw [h]

@[simp] theorem placeSentinel_pendingCallback (st : EngineState) (cls : String)
    (ref : Option Nat) (content a : String) :
    (placeSentinel st cls ref content a).2.pendingCallback = st.pendingCallback := by
  obtain ⟨hd, n, w, h⟩ := placeSentinel_shape st cls ref content a
  rw [h]

@[simp] theorem placeSentinel_headObserver (st : EngineState) (cls : String)
    (ref : Option Nat) (content a : String) :
    (placeSentinel st cls ref content a).2.headObserver = st.headObserver := by
  obtain ⟨hd, n, w, h⟩ := placeSentinel_shape st cls ref content a
  rw [h]

@[simp] theorem placeSentinel_modificationCacheFull (st : EngineState) (cls : String)
    (ref : Option Nat) (content a : String) :
    (placeSentinel st cls ref content a).2.modificationCacheFull = st.modificationCacheFull := by
  obtain ⟨hd, n, w, h⟩ := placeSentinel_shape st cls ref content a
  rw [h]

theorem placeSentinel_found {st : EngineState} {cls : String} {e : Elem}
    (ref : Option Nat) (content a : String)
    (h : querySelectorClass st.headElems cls = some e) :
    (placeSentinel st cls ref content a).1 = e ∧
    (placeSentinel st cls ref content a).2.headElems =
      setContentById (insertBeforeId st.headElems e ref) e.id content ∧
    (placeSentinel st cls ref content a).2.nextElemId = st.nextElemId := by
  simp [placeSentinel, createOrUpdateStyle, setupStylePositionWatcher, h]

theorem placeSentinel_fresh {st : EngineState} {cls : String}
    (ref : Option Nat) (content a : String)
    (h : querySelectorClass st.headElems cls = none) :
    (placeSentinel st cls ref content a).1 = freshStyleElem st cls ∧
    (placeSentinel st cls ref content a).2.headElems =
      setContentById (insertBeforeId st.headElems (freshStyleElem st cls) ref)
        st.nextElemId content ∧
    (placeSentinel st cls ref content a).2.nextElemId = st.nextElemId + 1 := by
  simp [placeSentinel, createOrUpdateStyle, setupStylePositionWatcher, h, freshStyleElem]

theorem idsOK_not_mem {st : EngineState} (h : idsOK st) :
    st.nextElemId ∉ elemIds st.headElems :=
  fun hm => lt_irrefl _ (h.2 _ hm)

theorem placeSentinel_countClass_found {st : EngineState} {cls : String} {e : Elem}
    (ref : Option Nat) (content a : String)
    (h : querySelectorClass st.headElems cls = some e)
    (hnd : (elemIds st.headElems).Nodup) (c : String) :
    countClass (placeSentinel st cls ref content a).2.headElems c =
      countClass st.headElems c := by
  obtain ⟨-, h2, -⟩ := placeSentinel_found ref content a h
  rw [h2, countClass_setContentById]
  exact countClass_perm (insertBeforeId_perm_of_mem ref hnd (querySelectorClass_mem h).1) c

theorem placeSentinel_countClass_fresh {st : EngineState} {cls : String}
    (ref : Option Nat) (content a : String)
    (h : querySelectorClass st.headElems cls = none)
    (hfresh : st.nextElemId ∉ elemIds st.headElems) (c : String) :
    countClass (placeSentinel st cls ref content a).2.headElems c =
      countClass st.headElems c +
        (if (freshStyleElem st cls).classes.contains c then 1 else 0) := by
  obtain ⟨-, h2, -⟩ := placeSentinel_fresh ref content a h
  rw [h2, countClass_setContentById]
  have hp := insertBeforeId_perm_fresh ref
    (show (freshStyleElem st cls).id ∉ elemIds st.headElems from hfresh)
  rw [countClass_perm hp c, countClass_cons]

theorem placeSentinel_idsOK {st : EngineState} (cls : String) (ref : Option Nat)
    (content a : String) (h : idsOK st) :
    idsOK (placeSentinel st cls ref content a).2 := by
  cases hq : querySelectorClass st.headElems cls with
  | some e =>
    obtain ⟨-, h2, h3⟩ := placeSentinel_found ref content a hq
    have hp : List.Perm (elemIds (placeSentinel st cls ref content a).2.headElems)
        (elemIds st.headElems) := by
      rw [h2, elemIds_setContentById]
      exact (insertBeforeId_perm_of_mem ref h.1 (querySelectorClass_mem hq).1).map (·.id)
    exact ⟨hp.nodup_iff.mpr h.1, fun i hi => h3 ▸ h.2 i (hp.mem_iff.mp hi)⟩
  | none =>
    obtain ⟨-, h2, h3⟩ := placeSentinel_fresh ref content a hq
    have hp : List.Perm (elemIds (placeSentinel st cls ref content a).2.headElems)
        (st.nextElemId :: elemIds st.headElems) := by
      rw [h2, elemIds_setContentById]
      exact (insertBeforeId_perm_fresh ref
        (show (freshStyleElem st cls).id ∉ elemIds st.headElems from idsOK_not_mem h)).map (·.id)
    refine ⟨hp.nodup_iff.mpr (List.nodup_cons.mpr ⟨idsOK_not_mem h, h.1⟩), fun i hi => ?_⟩
    rw [h3]
    rcases List.mem_cons.mp (hp.mem_iff.mp hi) with rfl | hi2
    · exact Nat.lt_succ_self _
    · exact Nat.lt_succ_of_lt (h.2 i hi2)

theorem placeSentinel_presence_self {st : EngineState} (cls : String) (ref : Option Nat)
    (content a : String) (h : idsOK st) :
    0 < countClass (placeSentinel st cls ref content a).2.headElems cls := by
  cases hq : querySelectorClass st.headElems cls with
  | some e =>
    rw [placeSentinel_countClass_found ref content a hq h.1]
    exact (querySelectorClass_isSome_iff _ _).mp (by rw [hq]; rfl)
  | none =>
    rw [placeSentinel_countClass_fresh ref content a hq (idsOK_not_mem h)]
    have : (freshStyleElem st cls).classes.contains cls = true := by
      simp [freshStyleElem]
    rw [this]
    simp

theorem placeSentinel_presence_mono {st : EngineState} (cls : String) (ref : Option Nat)
    (content a c : String) (h : idsOK st)
    (hc : 0 < countClass st.headElems c) :
    0 < countClass (placeSentinel st cls ref content a).2.headElems c := by
  cases hq : querySelectorClass st.headElems cls with
  | some e => rw [placeSentinel_countClass_found ref content a hq h.1]; exact hc
  | none =>
    rw [placeSentinel_countClass_fresh ref content a hq (idsOK_not_mem h)]
    exact Nat.lt_of_lt_of_le hc (Nat.le_add_right _ _)

/-! ## Lemmas about `createStaticStyleOverrides` -/

@[simp] theorem createStaticStyleOverrides_styleManagers (ext : Ext) (f : FilterConfig)
    (fx : Option DynamicThemeFix) (st : EngineState) :
    (createStaticStyleOverrides ext f fx st).styleManagers = st.styleManagers := by
  simp [createStaticStyleOverrides, staticFallback, staticUserAgent, staticText,
    staticInvert, staticInline, staticOverride]

@[simp] theorem createStaticStyleOverrides_varTable (ext : Ext) (f : FilterConfig)
    (fx : Option DynamicThemeFix) (st : EngineState) :
    (createStaticStyleOverrides ext f fx st).varTable = st.varTable := by
  simp [createStaticStyleOverrides, staticFallback, staticUserAgent, staticText,
    staticInvert, staticInline, staticOverride]

@[simp] theorem createStaticStyleOverrides_loadingStyles (ext : Ext) (f : FilterConfig)
    (fx : Option DynamicThemeFix) (st : EngineState) :
    (createStaticStyleOverrides ext f fx st).loadingStyles = st.loadingStyles := by
  simp [createStaticStyleOverrides, staticFallback, staticUserAgent, staticText,
    staticInvert, staticInline, staticOverride]

@[simp] theorem createStaticStyleOverrides_loadingStylesCounter (ext : Ext) (f : FilterConfig)
    (fx : Option DynamicThemeFix) (st : EngineState) :
    (createStaticStyleOverrides ext f fx st).loadingStylesCounter = st.loadingStylesCounter := by
  simp [createStaticStyleOverrides, staticFallback, staticUserAgent, staticText,
    staticInvert, staticInline, staticOverride]

@[simp] theorem createStaticStyleOverrides_destroyedLog (ext : Ext) (f : FilterConfig)
    (fx : Option DynamicThemeFix) (st : EngineState) :
    (createStaticStyleOverrides ext f fx st).destroyedLog = st.destroyedLog := by
  simp [createStaticStyleOverrides, staticFallback, staticUserAgent, staticText,
    staticInvert, staticInline, staticOverride]

@[simp] theorem createStaticStyleOverrides_rootElems (ext : Ext) (f : FilterConfig)
    (fx : Option DynamicThemeFix) (st : EngineState) :
    (createStaticStyleOverrides ext f fx st).rootElems = st.rootElems := by
  simp [createStaticStyleOverrides, staticFallback, staticUserAgent, staticText,
    staticInvert, staticInline, staticOverride]

@[simp] theorem createStaticStyleOverrides_hasHead (ext : Ext) (f : FilterConfig)
    (fx : Option DynamicThemeFix) (st : EngineState) :
    (createStaticStyleOverrides ext f fx st).hasHead = st.hasHead := by
  simp [createStaticStyleOverrides, staticFallback, staticUserAgent, staticText,
    staticInvert, staticInline, staticOverride]

@[simp] theorem createStaticStyleOverrides_hidden (ext : Ext) (f : FilterConfig)
    (fx : Option DynamicThemeFix) (st : EngineState) :
    (createStaticStyleOverrides ext f fx st).hidden = st.hidden := by
  simp [createStaticStyleOverrides, staticFallback, staticUserAgent, staticText,
    staticInvert, staticInline, staticOverride]

@[simp] theorem createStaticStyleOverrides_readyState (ext : Ext) (f : FilterConfig)
    (fx : Option DynamicThemeFix) (st : EngineState) :
    (createStaticStyleOverrides ext f fx st).readyState = st.readyState := by
  simp [createStaticStyleOverrides, staticFallback, staticUserAgent, staticText,
    staticInvert, staticInline, staticOverride]

@[simp] theorem createStaticStyleOverrides_visibilityListener (ext : Ext) (f : FilterConfig)
    (fx : Option DynamicThemeFix) (st : EngineState) :
    (createStaticStyleOverrides ext f fx st).visibilityListener = st.visibilityListener := by
  simp [createStaticStyleOverrides, staticFallback, staticUserAgent, staticText,
    staticInvert, staticInline, staticOverride]

@[simp] theorem createStaticStyleOverrides_styleChangeWatching (ext : Ext) (f : FilterConfig)
    (fx : Option DynamicThemeFix) (st : EngineState) :
    (createStaticStyleOverrides ext f fx st).styleChangeWatching = st.styleChangeWatching := by
  simp [createStaticStyleOverrides, staticFallback, staticUserAgent, staticText,
    staticInvert, staticInline, staticOverride]

@[simp] theorem createStaticStyleOverrides_inlineWatching (ext : Ext) (f : FilterConfig)
    (fx : Option DynamicThemeFix) (st : EngineState) :
    (createStaticStyleOverrides ext f fx st).inlineWatching = st.inlineWatching := by
  simp [createStaticStyleOverrides, staticFallback, staticUserAgent, staticText,
    staticInvert, staticInline, staticOverride]

@[simp] theorem createStaticStyleOverrides_readyListener (ext : Ext) (f : FilterConfig)
    (fx : Option DynamicThemeFix) (st : EngineState) :
    (createStaticStyleOverrides ext f fx st).readyListener = st.readyListener := by
  simp [createStaticStyleOverrides, staticFallback, staticUserAgent, staticText,
    staticInvert, staticInline, staticOverride]

@[simp] theorem createStaticStyleOverrides_pendingRender (ext : Ext) (f : FilterConfig)
    (fx : Option DynamicThemeFix) (st : EngineState) :
    (createStaticStyleOverrides ext f fx st).pendingRender = st.pendingRender := by
  simp [createStaticStyleOverrides, staticFallback, staticUserAgent, staticText,
    staticInvert, staticInline, staticOverride]

@[simp] theorem createStaticStyleOverrides_pendingCallback (ext : Ext) (f : FilterConfig)
    (fx : Option DynamicThemeFix) (st : EngineState) :
    (createStaticStyleOverrides ext f fx st).pendingCallback = st.pendingCallback := by
  simp [createStaticStyleOverrides, staticFallback, staticUserAgent, staticText,
    staticInvert, staticInline, staticOverride]

@[simp] theorem createStaticStyleOverrides_headObserver (ext : Ext) (f : FilterConfig)
    (fx : Option DynamicThemeFix) (st : EngineState) :
    (createStaticStyleOverrides ext f fx st).headObserver = st.headObserver := by
  simp [createStaticStyleOverrides, staticFallback, staticUserAgent, staticText,
    staticInvert, staticInline, staticOverride]

@[simp] theorem createStaticStyleOverrides_modificationCacheFull (ext : Ext) (f : FilterConfig)
    (fx : Option DynamicThemeFix) (st : EngineState) :
    (createStaticStyleOverrides ext f fx st).modificationCacheFull = st.modificationCacheFull := by
  simp [createStaticStyleOverrides, staticFallback, staticUserAgent, staticText,
    staticInvert, staticInline, staticOverride]

theorem createStaticStyleOverrides_idsOK (ext : Ext) (f : FilterConfig)
    (fx : Option DynamicThemeFix) {st : EngineState} (h : idsOK st) :
    idsOK (createStaticStyleOverrides ext f fx st) := by
  unfold createStaticStyleOverrides staticFallback staticUserAgent staticText
    staticInvert staticInline staticOverride
  exact placeSentinel_idsOK _ _ _ _ (placeSentinel_idsOK _ _ _ _ (placeSentinel_idsOK _ _ _ _
    (placeSentinel_idsOK _ _ _ _ (placeSentinel_idsOK _ _ _ _ (placeSentinel_idsOK _ _ _ _ h)))))

/-- One found-case step, carrying the stage invariant "ids are
well-formed and all class counts agree with the starting head". -/
theorem placeSentinel_stable_step {st0 st : EngineState} (cls : String) (ref : Option Nat)
    (content a : String) (hids : idsOK st)
    (hcnt : ∀ c, countClass st.headElems c = countClass st0.headElems c)
    (hpres : 0 < countClass st0.headElems cls) :
    idsOK (placeSentinel st cls ref content a).2 ∧
    ∀ c, countClass (placeSentinel st cls ref content a).2.headElems c =
      countClass st0.headElems c := by
  have hp : 0 < countClass st.headElems cls := by rw [hcnt]; exact hpres
  obtain ⟨e, he⟩ := Option.isSome_iff_exists.mp ((querySelectorClass_isSome_iff _ _).mpr hp)
  exact ⟨placeSentinel_idsOK _ _ _ _ hids,
    fun c => (placeSentinel_countClass_found _ _ _ he hids.1 c).trans (hcnt c)⟩

/-- When each of the six sentinel classes is already present, a second
`createStaticStyleOverrides` reuses every element and leaves every class
count unchanged. -/
theorem createStaticStyleOverrides_count_stable (ext : Ext) (f : FilterConfig)
    (fx : Option DynamicThemeFix) {st : EngineState} (h : idsOK st)
    (h1 : 0 < countClass st.headElems "darkreader--fallback")
    (h2 : 0 < countClass st.headElems "darkreader--user-agent")
    (h3 : 0 < countClass st.headElems "darkreader--text")
    (h4 : 0 < countClass st.headElems "darkreader--invert")
    (h5 : 0 < countClass st.headElems "darkreader--inline")
    (h6 : 0 < countClass st.headElems "darkreader--override") :
    ∀ c, countClass (createStaticStyleOverrides ext f fx st).headElems c =
      countClass st.headElems c := by
  simp only [createStaticStyleOverrides]
  set p1 := staticFallback ext st with hp1
  set p2 := staticUserAgent ext p1.1 p1.2 with hp2
  set p3 := staticText ext f p1.1 p2.2 with hp3
  set p4 := staticInvert ext f fx p3.1 p3.2 with hp4
  set p5 := staticInline ext p4.1 p4.2 with hp5
  have s1 : idsOK p1.2 ∧ ∀ c, countClass p1.2.headElems c = countClass st.headElems c :=
    placeSentinel_stable_step _ _ _ _ h (fun c => rfl) h1
  have s2 : idsOK p2.2 ∧ ∀ c, countClass p2.2.headElems c = countClass st.headElems c :=
    placeSentinel_stable_step _ _ _ _ s1.1 s1.2 h2
  have s3 : idsOK p3.2 ∧ ∀ c, countClass p3.2.headElems c = countClass st.headElems c :=
    placeSentinel_stable_step _ _ _ _ s2.1 s2.2 h3
  have s4 : idsOK p4.2 ∧ ∀ c, countClass p4.2.headElems c = countClass st.headElems c :=
    placeSentinel_stable_step _ _ _ _ s3.1 s3.2 h4
  have s5 : idsOK p5.2 ∧ ∀ c, countClass p5.2.headElems c = countClass st.headElems c :=
    placeSentinel_stable_step _ _ _ _ s4.1 s4.2 h5
  exact (placeSentinel_stable_step _ _ _ _ s5.1 s5.2 h6).2

set_option maxHeartbeats 2000000 in
/-- After `createStaticStyleOverrides`, each of the six sentinel classes
is present in the head. -/
theorem createStaticStyleOverrides_presence (ext : Ext) (f : FilterConfig)
    (fx : Option DynamicThemeFix) {st : EngineState} (h : idsOK st) :
    0 < countClass (createStaticStyleOverrides ext f fx st).headElems "darkreader--fallback" ∧
    0 < countClass (createStaticStyleOverrides ext f fx st).headElems "darkreader--user-agent" ∧
    0 < countClass (createStaticStyleOverrides ext f fx st).headElems "darkreader--text" ∧
    0 < countClass (createStaticStyleOverrides ext f fx st).headElems "darkreader--invert" ∧
    0 < countClass (createStaticStyleOverrides ext f fx st).headElems "darkreader--inline" ∧
    0 < countClass (createStaticStyleOverrides ext f fx st).headElems "darkreader--override" := by
  simp only [createStaticStyleOverrides]
  set p1 := staticFallback ext st with hp1
  set p2 := staticUserAgent ext p1.1 p1.2 with hp2
  set p3 := staticText ext f p1.1 p2.2 with hp3
  set p4 := staticInvert ext f fx p3.1 p3.2 with hp4
  set p5 := staticInline ext p4.1 p4.2 with hp5
  have i1 : idsOK p1.2 := placeSentinel_idsOK _ _ _ _ h
  have i2 : idsOK p2.2 := placeSentinel_idsOK _ _ _ _ i1
  have i3 : idsOK p3.2 := placeSentinel_idsOK _ _ _ _ i2
  have i4 : idsOK p4.2 := placeSentinel_idsOK _ _ _ _ i3
  have i5 : idsOK p5.2 := placeSentinel_idsOK _ _ _ _ i4
  have f1 : 0 < countClass p1.2.headElems "darkreader--fallback" :=
    placeSentinel_presence_self _ _ _ _ h
  have f2 : 0 < countClass p2.2.headElems "darkreader--fallback" :=
    placeSentinel_presence_mono _ _ _ _ _ i1 f1
  have f3 : 0 < countClass p3.2.headElems "darkreader--fallback" :=
    placeSentinel_presence_mono _ _ _ _ _ i2 f2
  have f4 : 0 < countClass p4.2.headElems "darkreader--fallback" :=
    placeSentinel_presence_mono _ _ _ _ _ i3 f3
  have f5 : 0 < countClass p5.2.headElems "darkreader--fallback" :=
    placeSentinel_presence_mono _ _ _ _ _ i4 f4
  have u2 : 0 < countClass p2.2.headElems "darkreader--user-agent" :=
    placeSentinel_presence_self _ _ _ _ i1
  have u3 : 0 < countClass p3.2.headElems "darkreader--user-agent" :=
    placeSentinel_presence_mono _ _ _ _ _ i2 u2
  have u4 : 0 < countClass p4.2.headElems "darkreader--user-agent" :=
    placeSentinel_presence_mono _ _ _ _ _ i3 u3
  have u5 : 0 < countClass p5.2.headElems "darkreader--user-agent" :=
    placeSentinel_presence_mono _ _ _ _ _ i4 u4
  have t3 : 0 < countClass p3.2.headElems "darkreader--text" :=
    placeSentinel_presence_self _ _ _ _ i2
  have t4 : 0 < countClass p4.2.headElems "darkreader--text" :=
    placeSentinel_presence_mono _ _ _ _ _ i3 t3
  have t5 : 0 < countClass p5.2.headElems "darkreader--text" :=
    placeSentinel_presence_mono _ _ _ _ _ i4 t4
  have v4 : 0 < countClass p4.2.headElems "darkreader--invert" :=
    placeSentinel_presence_self _ _ _ _ i3
  have v5 : 0 < countClass p5.2.headElems "darkreader--invert" :=
    placeSentinel_presence_mono _ _ _ _ _ i4 v4
  have n5 : 0 < countClass p5.2.headElems "darkreader--inline" :=
    placeSentinel_presence_self _ _ _ _ i4
  exact ⟨placeSentinel_presence_mono _ _ _ _ _ i5 f5,
    placeSentinel_presence_mono _ _ _ _ _ i5 u5,
    placeSentinel_presence_mono _ _ _ _ _ i5 t5,
    placeSentinel_presence_mono _ _ _ _ _ i5 v5,
    placeSentinel_presence_mono _ _ _ _ _ i5 n5,
    placeSentinel_presence_self _ _ _ _ i5⟩

/-! ## Lemmas about `lookupKey` and the manager registry -/

theorem optionMap_isSome {α β : Type _} (f : α → β) (o : Option α) :
    (Option.map f o).isSome = o.isSome := by
  cases o <;> rfl

theorem lookupKey_isSome_iff (l : List (Nat × Manager)) (k : Nat) :
    (lookupKey l k).isSome ↔ k ∈ l.map (·.1) := by
  unfold lookupKey
  rw [optionMap_isSome, List.find?_isSome]
  constructor
  · rintro ⟨p, hp, hpe⟩
    simp only [decide_eq_true_eq] at hpe
    exact hpe ▸ List.mem_map_of_mem _ hp
  · intro hm
    obtain ⟨p, hp, he⟩ := List.mem_map.mp hm
    exact ⟨p, hp, by simp [he]⟩

theorem lookupKey_append_single (l : List (Nat × Manager)) (el k : Nat) (m : Manager) :
    (lookupKey (l ++ [(el, m)]) k).isSome ↔ (lookupKey l k).isSome ∨ el = k := by
  unfold lookupKey
  rw [List.find?_append, optionMap_isSome, optionMap_isSome]
  cases h : List.find? (fun p => decide (p.1 = k)) l with
  | some p => simp [Option.or, h]
  | none =>
    simp only [Option.or, h, List.find?]
    by_cases he : el = k <;> simp [he]

theorem lookupKey_append_single_ne (l : List (Nat × Manager)) {el k : Nat} (m : Manager)
    (hne : k ≠ el) : lookupKey (l ++ [(el, m)]) k = lookupKey l k := by
  unfold lookupKey
  rw [List.find?_append]
  cases h : List.find? (fun p => decide (p.1 = k)) l with
  | some p => simp [Option.or, h]
  | none => simp [Option.or, h, List.find?, Ne.symm hne]

theorem lookupKey_filter_ne (l : List (Nat × Manager)) {el k : Nat} (hne : k ≠ el) :
    lookupKey (l.filter (fun p => p.1 ≠ el)) k = lookupKey l k := by
  unfold lookupKey
  congr 1
  induction l with
  | nil => rfl
  | cons p t ih =>
    rw [List.filter_cons]
    by_cases hp : p.1 = el
    · have h1 : ¬((fun q : Nat × Manager => decide (q.1 = k)) p = true) := by
        simp [hp, Ne.symm hne]
      rw [if_neg (by simp [hp]), ih]
      exact (List.find?_cons_of_neg (p := fun q : Nat × Manager => decide (q.1 = k)) t h1).symm
    · rw [if_pos (by simp [hp])]
      by_cases hpk : p.1 = k
      · rw [List.find?_cons_of_pos _ (by simp [hpk]), List.find?_cons_of_pos _ (by simp [hpk])]
      · rw [List.find?_cons_of_neg _ (by simp [hpk]), List.find?_cons_of_neg _ (by simp [hpk]),
          ih]

theorem managerFor_isSome_iff (st : EngineState) (el : Nat) :
    (managerFor st el).isSome ↔ el ∈ st.styleManagers.map (·.1) :=
  lookupKey_isSome_iff st.styleManagers el

theorem createManager_of_isSome {st : EngineState} {el : Nat}
    (h : (managerFor st el).isSome) : createManager el st = st := by
  unfold createManager
  simp [h]

theorem removeManager_of_none {st : EngineState} {el : Nat}
    (h : managerFor st el = none) : removeManager el st = st := by
  unfold removeManager
  rw [h]

theorem createManager_of_none {st : EngineState} {el : Nat}
    (h : managerFor st el = none) :
    createManager el st =
      { st with
        loadingStylesCounter := st.loadingStylesCounter + 1
        styleManagers := st.styleManagers ++
          [(el, { elemId := el, token := st.loadingStylesCounter + 1 })] } := by
  unfold createManager
  simp [h]

theorem removeManager_of_some {st : EngineState} {el : Nat} {m : Manager}
    (h : managerFor st el = some m) :
    removeManager el st =
      { st with
        destroyedLog := st.destroyedLog ++ [el]
        styleManagers := st.styleManagers.filter (fun p => p.1 ≠ el) } := by
  unfold removeManager
  rw [h]

theorem managerFor_createManager_self (st : EngineState) (el : Nat) :
    (managerFor (createManager el st) el).isSome := by
  cases h : managerFor st el with
  | some m => rw [createManager_of_isSome (by simp [h])]; simp [h]
  | none =>
    rw [createManager_of_none h]
    show (lookupKey (st.styleManagers ++ [(el, _)]) el).isSome
    rw [lookupKey_append_single]
    exact Or.inr rfl

theorem managerFor_createManager_mono {st : EngineState} {k : Nat} (el : Nat)
    (h : (managerFor st k).isSome) : (managerFor (createManager el st) k).isSome := by
  cases hq : managerFor st el with
  | some m => rw [createManager_of_isSome (by simp [hq])]; exact h
  | none =>
    rw [createManager_of_none hq]
    show (lookupKey (st.styleManagers ++ [(el, _)]) k).isSome
    rw [lookupKey_append_single]
    exact Or.inl h

theorem managerFor_foldl_createManager_mono {l : List Nat} {st : EngineState} {k : Nat}
    (h : (managerFor st k).isSome) :
    (managerFor (l.foldl (fun acc s => createManager s acc) st) k).isSome := by
  induction l generalizing st with
  | nil => exact h
  | cons a t ih =>
    rw [List.foldl_cons]
    exact ih (managerFor_createManager_mono a h)

theorem managerFor_foldl_createManager_mem {l : List Nat} {st : EngineState} {k : Nat}
    (h : k ∈ l) :
    (managerFor (l.foldl (fun acc s => createManager s acc) st) k).isSome := by
  induction l generalizing st with
  | nil => cases h
  | cons a t ih =>
    rw [List.foldl_cons]
    rcases List.mem_cons.mp h with rfl | h2
    · exact managerFor_foldl_createManager_mono (managerFor_createManager_self st k)
    · exact ih h2

theorem registryNodup_createManager {st : EngineState} (el : Nat)
    (h : registryNodup st) : registryNodup (createManager el st) := by
  cases hq : managerFor st el with
  | some m => rw [createManager_of_isSome (by simp [hq])]; exact h
  | none =>
    rw [createManager_of_none hq]
    unfold registryNodup at h ⊢
    have hel : el ∉ st.styleManagers.map (·.1) := by
      intro hm
      rw [← managerFor_isSome_iff] at hm
      simp [hq] at hm
    rw [List.map_append, List.nodup_append]
    exact ⟨h, List.nodup_singleton _, by
      simpa [List.disjoint_singleton] using hel⟩

theorem registryNodup_removeManager {st : EngineState} (el : Nat)
    (h : registryNodup st) : registryNodup (removeManager el st) := by
  cases hq : managerFor st el with
  | none => rw [removeManager_of_none hq]; exact h
  | some m =>
    rw [removeManager_of_some hq]
    unfold registryNodup at h ⊢
    exact List.Nodup.sublist ((List.filter_sublist _).map _) h

theorem managerFor_createManager_ne {st : EngineState} {k el : Nat} (hne : k ≠ el) :
    managerFor (createManager el st) k = managerFor st k := by
  cases hq : managerFor st el with
  | some m => rw [createManager_of_isSome (by simp [hq])]
  | none =>
    rw [createManager_of_none hq]
    exact lookupKey_append_single_ne _ _ hne

theorem managerFor_removeManager_ne {st : EngineState} {k el : Nat} (hne : k ≠ el) :
    managerFor (removeManager el st) k = managerFor st k := by
  cases hq : managerFor st el with
  | none => rw [removeManager_of_none hq]
  | some m =>
    rw [removeManager_of_some hq]
    exact lookupKey_filter_ne _ hne

theorem destroyedLog_createManager (st : EngineState) (el : Nat) :
    (createManager el st).destroyedLog = st.destroyedLog := by
  cases hq : managerFor st el with
  | some m => rw [createManager_of_isSome (by simp [hq])]
  | none => rw [createManager_of_none hq]

theorem destroyedLog_removeManager_mem {st : EngineState} {k el : Nat} (hne : k ≠ el) :
    (k ∈ (removeManager el st).destroyedLog ↔ k ∈ st.destroyedLog) := by
  cases hq : managerFor st el with
  | none => rw [removeManager_of_none hq]
  | some m => rw [removeManager_of_some hq]; simp [hne]

/-! ## Frame lemmas for the small state transformers -/

theorem cleanFallbackStyle_shape (st : EngineState) :
    ∃ hd, cleanFallbackStyle st = { st with headElems := hd } := by
  unfold cleanFallbackStyle
  cases h : querySelectorClass st.headElems "darkreader--fallback"
  · exact ⟨st.headElems, rfl⟩
  · exact ⟨_, rfl⟩

@[simp] theorem cleanFallbackStyle_styleManagers (st : EngineState) :
    (cleanFallbackStyle st).styleManagers = st.styleManagers := by
  obtain ⟨hd, h⟩ := cleanFallbackStyle_shape st
  rw [h]

@[simp] theorem cleanFallbackStyle_varTable (st : EngineState) :
    (cleanFallbackStyle st).varTable = st.varTable := by
  obtain ⟨hd, h⟩ := cleanFallbackStyle_shape st
  rw [h]

@[simp] theorem cleanFallbackStyle_loadingStyles (st : EngineState) :
    (cleanFallbackStyle st).loadingStyles = st.loadingStyles := by
  obtain ⟨hd, h⟩ := cleanFallbackStyle_shape st
  rw [h]

@[simp] theorem cleanFallbackStyle_loadingStylesCounter (st : EngineState) :
    (cleanFallbackStyle st).loadingStylesCounter = st.loadingStylesCounter := by
  obtain ⟨hd, h⟩ := cleanFallbackStyle_shape st
  rw [h]

@[simp] theorem cleanFallbackStyle_destroyedLog (st : EngineState) :
    (cleanFallbackStyle st).destroyedLog = st.destroyedLog := by
  obtain ⟨hd, h⟩ := cleanFallbackStyle_shape st
  rw [h]

@[simp] theorem cleanFallbackStyle_readyState (st : EngineState) :
    (cleanFallbackStyle st).readyState = st.readyState := by
  obtain ⟨hd, h⟩ := cleanFallbackStyle_shape st
  rw [h]

@[simp] theorem cleanFallbackStyle_rootElems (st : EngineState) :
    (cleanFallbackStyle st).rootElems = st.rootElems := by
  obtain ⟨hd, h⟩ := cleanFallbackStyle_shape st
  rw [h]

@[simp] theorem cleanFallbackStyle_hasHead (st : EngineState) :
    (cleanFallbackStyle st).hasHead = st.hasHead := by
  obtain ⟨hd, h⟩ := cleanFallbackStyle_shape st
  rw [h]

@[simp] theorem cleanFallbackStyle_hidden (st : EngineState) :
    (cleanFallbackStyle st).hidden = st.hidden := by
  obtain ⟨hd, h⟩ := cleanFallbackStyle_shape st
  rw [h]

@[simp] theorem cleanFallbackStyle_readyListener (st : EngineState) :
    (cleanFallbackStyle st).readyListener = st.readyListener := by
  obtain ⟨hd, h⟩ := cleanFallbackStyle_shape st
  rw [h]

@[simp] theorem cleanFallbackStyle_visibilityListener (st : EngineState) :
    (cleanFallbackStyle st).visibilityListener = st.visibilityListener := by
  obtain ⟨hd, h⟩ := cleanFallbackStyle_shape st
  rw [h]

@[simp] theorem cleanFallbackStyle_styleChangeWatching (st : EngineState) :
    (cleanFallbackStyle st).styleChangeWatching = st.styleChangeWatching := by
  obtain ⟨hd, h⟩ := cleanFallbackStyle_shape st
  rw [h]

@[simp] theorem cleanFallbackStyle_countClass (st : EngineState) (c : String) :
    countClass (cleanFallbackStyle st).headElems c = countClass st.headElems c := by
  unfold cleanFallbackStyle
  cases h : querySelectorClass st.headElems "darkreader--fallback"
  · rfl
  · exact countClass_setContentById _ _ _ _

@[simp] theorem cleanFallbackStyle_elemIds (st : EngineState) :
    elemIds (cleanFallbackStyle st).headElems = elemIds st.headElems := by
  unfold cleanFallbackStyle
  cases h : querySelectorClass st.headElems "darkreader--fallback"
  · rfl
  · exact elemIds_setContentById _ _ _

@[simp] theorem cleanFallbackStyle_nextElemId (st : EngineState) :
    (cleanFallbackStyle st).nextElemId = st.nextElemId := by
  obtain ⟨hd, h⟩ := cleanFallbackStyle_shape st
  rw [h]

theorem cleanFallbackStyle_idsOK {st : EngineState} (h : idsOK st) :
    idsOK (cleanFallbackStyle st) := by
  constructor
  · rw [cleanFallbackStyle_elemIds]; exact h.1
  · intro i hi
    rw [cleanFallbackStyle_elemIds] at hi
    rw [cleanFallbackStyle_nextElemId]
    exact h.2 i hi

theorem foldUpdateVariables_shape (l : List VarMap) (st : EngineState) :
    ∃ vt, foldUpdateVariables l st = { st with varTable := vt } := by
  induction l generalizing st with
  | nil => exact ⟨st.varTable, rfl⟩
  | cons a t ih =>
    obtain ⟨vt, hvt⟩ := ih { st with varTable := updateVariables a st.varTable }
    exact ⟨vt, by rw [foldUpdateVariables, List.foldl_cons, ← foldUpdateVariables, hvt]⟩

@[simp] theorem foldUpdateVariables_styleManagers (l : List VarMap) (st : EngineState) :
    (foldUpdateVariables l st).styleManagers = st.styleManagers := by
  obtain ⟨vt, h⟩ := foldUpdateVariables_shape l st
  rw [h]

@[simp] theorem foldUpdateVariables_headElems (l : List VarMap) (st : EngineState) :
    (foldUpdateVariables l st).headElems = st.headElems := by
  obtain ⟨vt, h⟩ := foldUpdateVariables_shape l st
  rw [h]

@[simp] theorem foldUpdateVariables_destroyedLog (l : List VarMap) (st : EngineState) :
    (foldUpdateVariables l st).destroyedLog = st.destroyedLog := by
  obtain ⟨vt, h⟩ := foldUpdateVariables_shape l st
  rw [h]

@[simp] theorem foldUpdateVariables_loadingStyles (l : List VarMap) (st : EngineState) :
    (foldUpdateVariables l st).loadingStyles = st.loadingStyles := by
  obtain ⟨vt, h⟩ := foldUpdateVariables_shape l st
  rw [h]

@[simp] theorem foldUpdateVariables_nextElemId (l : List VarMap) (st : EngineState) :
    (foldUpdateVariables l st).nextElemId = st.nextElemId := by
  obtain ⟨vt, h⟩ := foldUpdateVariables_shape l st
  rw [h]

@[simp] theorem foldUpdateVariables_rootElems (l : List VarMap) (st : EngineState) :
    (foldUpdateVariables l st).rootElems = st.rootElems := by
  obtain ⟨vt, h⟩ := foldUpdateVariables_shape l st
  rw [h]

@[simp] theorem foldUpdateVariables_hasHead (l : List VarMap) (st : EngineState) :
    (foldUpdateVariables l st).hasHead = st.hasHead := by
  obtain ⟨vt, h⟩ := foldUpdateVariables_shape l st
  rw [h]

@[simp] theorem foldUpdateVariables_hidden (l : List VarMap) (st : EngineState) :
    (foldUpdateVariables l st).hidden = st.hidden := by
  obtain ⟨vt, h⟩ := foldUpdateVariables_shape l st
  rw [h]

@[simp] theorem cancelRendering_styleManagers (st : EngineState) :
    (cancelRendering st).styleManagers = st.styleManagers := rfl

@[simp] theorem cancelRendering_headElems (st : EngineState) :
    (cancelRendering st).headElems = st.headElems := rfl

@[simp] theorem cancelRendering_loadingStyles (st : EngineState) :
    (cancelRendering st).loadingStyles = st.loadingStyles := rfl

@[simp] theorem cancelRendering_destroyedLog (st : EngineState) :
    (cancelRendering st).destroyedLog = st.destroyedLog := rfl

@[simp] theorem cancelRendering_nextElemId (st : EngineState) :
    (cancelRendering st).nextElemId = st.nextElemId := rfl

@[simp] theorem cancelRendering_rootElems (st : EngineState) :
    (cancelRendering st).rootElems = st.rootElems := rfl

@[simp] theorem cancelRendering_varTable (st : EngineState) :
    (cancelRendering st).varTable = st.varTable := rfl

@[simp] theorem cancelRendering_hasHead (st : EngineState) :
    (cancelRendering st).hasHead = st.hasHead := rfl

@[simp] theorem cancelRendering_hidden (st : EngineState) :
    (cancelRendering st).hidden = st.hidden := rfl

@[simp] theorem cancelRendering_visibilityListener (st : EngineState) :
    (cancelRendering st).visibilityListener = st.visibilityListener := rfl

@[simp] theorem cancelRendering_readyState (st : EngineState) :
    (cancelRendering st).readyState = st.readyState := rfl

@[simp] theorem cancelRendering_readyListener (st : EngineState) :
    (cancelRendering st).readyListener = st.readyListener := rfl

@[simp] theorem cancelRendering_styleChangeWatching (st : EngineState) :
    (cancelRendering st).styleChangeWatching = st.styleChangeWatching := rfl

@[simp] theorem cancelRendering_loadingStylesCounter (st : EngineState) :
    (cancelRendering st).loadingStylesCounter = st.loadingStylesCounter := rfl

theorem managerFor_cancelRendering (st : EngineState) (k : Nat) :
    managerFor (cancelRendering st) k = managerFor st k := rfl

/-! ## Lemmas about the sweep (`createDynamicStyleOverrides`) -/

theorem foldl_createManager_cancelRendering (l : List Nat) (st : EngineState) :
    l.foldl (fun acc s => createManager s acc) (cancelRendering st) =
      cancelRendering (l.foldl (fun acc s => createManager s acc) st) := by
  induction l generalizing st with
  | nil => rfl
  | cons a t ih =>
    rw [List.foldl_cons, List.foldl_cons]
    have hstep : createManager a (cancelRendering st) = cancelRendering (createManager a st) := by
      cases hq : managerFor st a with
      | some m =>
        have h1 : createManager a (cancelRendering st) = cancelRendering st :=
          createManager_of_isSome (by rw [managerFor_cancelRendering, hq]; rfl)
        have h2 : createManager a st = st := createManager_of_isSome (by rw [hq]; rfl)
        rw [h1, h2]
      | none =>
        have h1 : createManager a (cancelRendering st) =
            { cancelRendering st with
              loadingStylesCounter := (cancelRendering st).loadingStylesCounter + 1
              styleManagers := (cancelRendering st).styleManagers ++
                [(a, { elemId := a,
                       token := (cancelRendering st).loadingStylesCounter + 1 })] } :=
          createManager_of_none (by rw [managerFor_cancelRendering, hq])
        rw [h1, createManager_of_none hq]
        rfl
    rw [hstep, ih]

theorem eligibleStyles_cancelRendering (ext : Ext) (st : EngineState) :
    eligibleStyles ext (cancelRendering st) = eligibleStyles ext st := rfl

/-- The registry after the sweep is the registry after folding
`createManager` over the eligible list. -/
theorem sweep_styleManagers (ext : Ext) (st : EngineState) :
    (createDynamicStyleOverrides ext st).styleManagers =
      ((eligibleStyles ext st).foldl (fun acc s => createManager s acc) st).styleManagers := by
  unfold createDynamicStyleOverrides
  simp only [eligibleStyles_cancelRendering, foldl_createManager_cancelRendering]
  split
  · split <;> simp
  · simp

theorem createManager_shape (el : Nat) (st : EngineState) :
    ∃ ms c, createManager el st = { st with styleManagers := ms, loadingStylesCounter := c } := by
  cases hq : managerFor st el with
  | some m =>
    rw [createManager_of_isSome (by simp [hq])]
    exact ⟨st.styleManagers, st.loadingStylesCounter, rfl⟩
  | none =>
    rw [createManager_of_none hq]
    exact ⟨_, _, rfl⟩

theorem removeManager_shape (el : Nat) (st : EngineState) :
    ∃ ms d, removeManager el st = { st with styleManagers := ms, destroyedLog := d } := by
  cases hq : managerFor st el with
  | some m =>
    rw [removeManager_of_some hq]
    exact ⟨_, _, rfl⟩
  | none =>
    rw [removeManager_of_none hq]
    exact ⟨st.styleManagers, st.destroyedLog, rfl⟩

theorem foldl_createManager_shape (l : List Nat) (st : EngineState) :
    ∃ ms c, l.foldl (fun acc s => createManager s acc) st =
      { st with styleManagers := ms, loadingStylesCounter := c } := by
  induction l generalizing st with
  | nil => exact ⟨st.styleManagers, st.loadingStylesCounter, rfl⟩
  | cons a t ih =>
    obtain ⟨ms1, c1, h1⟩ := createManager_shape a st
    obtain ⟨ms2, c2, h2⟩ := ih (createManager a st)
    rw [List.foldl_cons, h2, h1]
    exact ⟨ms2, c2, rfl⟩

theorem foldl_removeManager_shape (l : List Nat) (st : EngineState) :
    ∃ ms d, l.foldl (fun acc s => removeManager s acc) st =
      { st with styleManagers := ms, destroyedLog := d } := by
  induction l generalizing st with
  | nil => exact ⟨st.styleManagers, st.destroyedLog, rfl⟩
  | cons a t ih =>
    obtain ⟨ms1, d1, h1⟩ := removeManager_shape a st
    obtain ⟨ms2, d2, h2⟩ := ih (removeManager a st)
    rw [List.foldl_cons, h2, h1]
    exact ⟨ms2, d2, rfl⟩

@[simp] theorem foldl_createManager_headElems (l : List Nat) (st : EngineState) :
    (l.foldl (fun acc s => createManager s acc) st).headElems = st.headElems := by
  obtain ⟨ms, c, h⟩ := foldl_createManager_shape l st
  rw [h]

@[simp] theorem foldl_createManager_nextElemId (l : List Nat) (st : EngineState) :
    (l.foldl (fun acc s => createManager s acc) st).nextElemId = st.nextElemId := by
  obtain ⟨ms, c, h⟩ := foldl_createManager_shape l st
  rw [h]

@[simp] theorem foldl_createManager_rootElems (l : List Nat) (st : EngineState) :
    (l.foldl (fun acc s => createManager s acc) st).rootElems = st.rootElems := by
  obtain ⟨ms, c, h⟩ := foldl_createManager_shape l st
  rw [h]

@[simp] theorem foldl_createManager_loadingStyles (l : List Nat) (st : EngineState) :
    (l.foldl (fun acc s => createManager s acc) st).loadingStyles = st.loadingStyles := by
  obtain ⟨ms, c, h⟩ := foldl_createManager_shape l st
  rw [h]

@[simp] theorem foldl_createManager_destroyedLog (l : List Nat) (st : EngineState) :
    (l.foldl (fun acc s => createManager s acc) st).destroyedLog = st.destroyedLog := by
  obtain ⟨ms, c, h⟩ := foldl_createManager_shape l st
  rw [h]

@[simp] theorem foldl_createManager_varTable (l : List Nat) (st : EngineState) :
    (l.foldl (fun acc s => createManager s acc) st).varTable = st.varTable := by
  obtain ⟨ms, c, h⟩ := foldl_createManager_shape l st
  rw [h]

@[simp] theorem foldl_createManager_hasHead (l : List Nat) (st : EngineState) :
    (l.foldl (fun acc s => createManager s acc) st).hasHead = st.hasHead := by
  obtain ⟨ms, c, h⟩ := foldl_createManager_shape l st
  rw [h]

@[simp] theorem foldl_createManager_hidden (l : List Nat) (st : EngineState) :
    (l.foldl (fun acc s => createManager s acc) st).hidden = st.hidden := by
  obtain ⟨ms, c, h⟩ := foldl_createManager_shape l st
  rw [h]

@[simp] theorem foldl_createManager_visibilityListener (l : List Nat) (st : EngineState) :
    (l.foldl (fun acc s => createManager s acc) st).visibilityListener = st.visibilityListener := by
  obtain ⟨ms, c, h⟩ := foldl_createManager_shape l st
  rw [h]

@[simp] theorem foldl_createManager_readyState (l : List Nat) (st : EngineState) :
    (l.foldl (fun acc s => createManager s acc) st).readyState = st.readyState := by
  obtain ⟨ms, c, h⟩ := foldl_createManager_shape l st
  rw [h]

/-- The sweep leaves every class count in the head unchanged (it can
only clear the fallback sentinel's content). -/
theorem sweep_countClass (ext : Ext) (st : EngineState) (c : String) :
    countClass (createDynamicStyleOverrides ext st).headElems c =
      countClass st.headElems c := by
  unfold createDynamicStyleOverrides
  simp only [eligibleStyles_cancelRendering, foldl_createManager_cancelRendering]
  split
  · split <;> simp
  · simp

theorem sweep_elemIds (ext : Ext) (st : EngineState) :
    elemIds (createDynamicStyleOverrides ext st).headElems = elemIds st.headElems := by
  unfold createDynamicStyleOverrides
  simp only [eligibleStyles_cancelRendering, foldl_createManager_cancelRendering]
  split
  · split <;> simp
  · simp

theorem sweep_nextElemId (ext : Ext) (st : EngineState) :
    (createDynamicStyleOverrides ext st).nextElemId = st.nextElemId := by
  unfold createDynamicStyleOverrides
  simp only [eligibleStyles_cancelRendering, foldl_createManager_cancelRendering]
  split
  · split <;> simp
  · simp

theorem sweep_hasHead (ext : Ext) (st : EngineState) :
    (createDynamicStyleOverrides ext st).hasHead = st.hasHead := by
  unfold createDynamicStyleOverrides
  simp only [eligibleStyles_cancelRendering, foldl_createManager_cancelRendering]
  split
  · split <;> simp
  · simp

theorem sweep_hidden (ext : Ext) (st : EngineState) :
    (createDynamicStyleOverrides ext st).hidden = st.hidden := by
  unfold createDynamicStyleOverrides
  simp only [eligibleStyles_cancelRendering, foldl_createManager_cancelRendering]
  split
  · split <;> simp
  · simp

theorem sweep_idsOK {st : EngineState} (ext : Ext) (h : idsOK st) :
    idsOK (createDynamicStyleOverrides ext st) := by
  constructor
  · rw [sweep_elemIds]; exact h.1
  · intro i hi
    rw [sweep_elemIds] at hi
    rw [sweep_nextElemId]
    exact h.2 i hi

/-- After the sweep, every eligible stylesheet node has a manager. -/
theorem sweep_managerFor_covered (ext : Ext) (st : EngineState) {s : Nat}
    (hs : s ∈ ext.docStyles) (hm : ext.shouldManage s = true) :
    (managerFor (createDynamicStyleOverrides ext st) s).isSome := by
  show (lookupKey (createDynamicStyleOverrides ext st).styleManagers s).isSome
  rw [sweep_styleManagers]
  show (managerFor ((eligibleStyles ext st).foldl (fun acc s => createManager s acc) st) s).isSome
  by_cases hq : (managerFor st s).isSome
  · exact managerFor_foldl_createManager_mono hq
  · refine managerFor_foldl_createManager_mem ?_
    unfold eligibleStyles
    rw [List.mem_filter]
    refine ⟨hs, ?_⟩
    rw [Bool.not_eq_true] at hq
    simp [hq, hm]

theorem sweep_managerFor_mono (ext : Ext) {st : EngineState} {k : Nat}
    (h : (managerFor st k).isSome) :
    (managerFor (createDynamicStyleOverrides ext st) k).isSome := by
  show (lookupKey (createDynamicStyleOverrides ext st).styleManagers k).isSome
  rw [sweep_styleManagers]
  exact managerFor_foldl_createManager_mono h

/-- A sweep over a document whose eligible stylesheets are all already
managed leaves the registry untouched. -/
theorem sweep_noop_managers (ext : Ext) {st : EngineState}
    (hcov : ∀ s ∈ ext.docStyles, ext.shouldManage s = true → (managerFor st s).isSome) :
    (createDynamicStyleOverrides ext st).styleManagers = st.styleManagers := by
  rw [sweep_styleManagers]
  have he : eligibleStyles ext st = [] := by
    unfold eligibleStyles
    rw [List.filter_eq_nil_iff]
    intro s hs
    by_cases hm : ext.shouldManage s = true
    · simp [hcov s hs hm]
    · simp [hm]
  rw [he, List.foldl_nil]

theorem managerFor_congr {s1 s2 : EngineState}
    (h : s1.styleManagers = s2.styleManagers) (k : Nat) :
    managerFor s1 k = managerFor s2 k := by
  unfold managerFor
  rw [h]

@[simp] theorem watchForUpdates_styleManagers (st : EngineState) :
    (watchForUpdates st).styleManagers = st.styleManagers := rfl

@[simp] theorem watchForUpdates_headElems (st : EngineState) :
    (watchForUpdates st).headElems = st.headElems := rfl

@[simp] theorem watchForUpdates_nextElemId (st : EngineState) :
    (watchForUpdates st).nextElemId = st.nextElemId := rfl

@[simp] theorem watchForUpdates_hasHead (st : EngineState) :
    (watchForUpdates st).hasHead = st.hasHead := rfl

@[simp] theorem watchForUpdates_hidden (st : EngineState) :
    (watchForUpdates st).hidden = st.hidden := rfl

@[simp] theorem watchForUpdates_rootElems (st : EngineState) :
    (watchForUpdates st).rootElems = st.rootElems := rfl

@[simp] theorem watchForUpdates_varTable (st : EngineState) :
    (watchForUpdates st).varTable = st.varTable := rfl

@[simp] theorem watchForUpdates_loadingStyles (st : EngineState) :
    (watchForUpdates st).loadingStyles = st.loadingStyles := rfl

@[simp] theorem watchForUpdates_destroyedLog (st : EngineState) :
    (watchForUpdates st).destroyedLog = st.destroyedLog := rfl

@[simp] theorem watchForUpdates_visibilityListener (st : EngineState) :
    (watchForUpdates st).visibilityListener = st.visibilityListener := rfl

/-- With a head present and the document visible, one activation is
exactly: static overrides, then the sweep, then arming the watchers. -/
theorem createOrUpdateDynamicTheme_active (ext : Ext) (f : FilterConfig)
    (fx : Option DynamicThemeFix) {st : EngineState}
    (hh : st.hasHead = true) (hv : st.hidden = false) :
    createOrUpdateDynamicTheme ext f fx st =
      watchForUpdates (createDynamicStyleOverrides ext
        (createStaticStyleOverrides ext f fx st)) := by
  unfold createOrUpdateDynamicTheme createThemeAndWatchForUpdates
  rw [if_pos hh, if_neg (by rw [createStaticStyleOverrides_hidden]; simp [hv])]

/-- With a head present and the document hidden, one activation builds
the static overrides and arms only the visibility listener. -/
theorem createOrUpdateDynamicTheme_hidden (ext : Ext) (f : FilterConfig)
    (fx : Option DynamicThemeFix) {st : EngineState}
    (hh : st.hasHead = true) (hv : st.hidden = true) :
    createOrUpdateDynamicTheme ext f fx st =
      watchForDocumentVisibility (createStaticStyleOverrides ext f fx st) := by
  unfold createOrUpdateDynamicTheme createThemeAndWatchForUpdates
  rw [if_pos hh, if_pos (by rw [createStaticStyleOverrides_hidden]; exact hv)]

/-- Also exposed at the `createThemeAndWatchForUpdates` level. -/
theorem createThemeAndWatchForUpdates_hidden (ext : Ext) (f : FilterConfig)
    (fx : Option DynamicThemeFix) {st : EngineState} (hv : st.hidden = true) :
    createThemeAndWatchForUpdates ext f fx st =
      watchForDocumentVisibility (createStaticStyleOverrides ext f fx st) := by
  unfold createThemeAndWatchForUpdates
  rw [if_pos (by rw [createStaticStyleOverrides_hidden]; exact hv)]

/-- Re-running a full activation changes neither the manager registry
nor the engine-tagged element count: every sentinel is found and reused,
and every eligible stylesheet is already managed. -/
theorem double_activation_stable (ext : Ext) (f : FilterConfig)
    (fx : Option DynamicThemeFix) {st : EngineState}
    (hh : st.hasHead = true) (hv : st.hidden = false) (hids : idsOK st) :
    (createOrUpdateDynamicTheme ext f fx
        (createOrUpdateDynamicTheme ext f fx st)).styleManagers =
      (createOrUpdateDynamicTheme ext f fx st).styleManagers ∧
    ∀ c, countClass (createOrUpdateDynamicTheme ext f fx
        (createOrUpdateDynamicTheme ext f fx st)).headElems c =
      countClass (createOrUpdateDynamicTheme ext f fx st).headElems c := by
  rw [createOrUpdateDynamicTheme_active ext f fx hh hv]
  set A := createStaticStyleOverrides ext f fx st with hA
  set B := createDynamicStyleOverrides ext A with hB
  set st1 := watchForUpdates B with hst1
  have hh1 : st1.hasHead = true := by
    rw [hst1, watchForUpdates_hasHead, hB, sweep_hasHead, hA,
      createStaticStyleOverrides_hasHead]
    exact hh
  have hv1 : st1.hidden = false := by
    rw [hst1, watchForUpdates_hidden, hB, sweep_hidden, hA,
      createStaticStyleOverrides_hidden]
    exact hv
  have hidsA : idsOK A := createStaticStyleOverrides_idsOK ext f fx hids
  have hids1 : idsOK st1 := sweep_idsOK ext hidsA
  have hcnt1 : ∀ c, countClass st1.headElems c = countClass A.headElems c := by
    intro c
    rw [hst1, watchForUpdates_headElems, hB]
    exact sweep_countClass ext A c
  have hpresA := createStaticStyleOverrides_presence ext f fx hids
  have hcov1 : ∀ s ∈ ext.docStyles, ext.shouldManage s = true →
      (managerFor st1 s).isSome := by
    intro s hs hm
    rw [managerFor_congr (watchForUpdates_styleManagers B) s]
    exact sweep_managerFor_covered ext A hs hm
  rw [createOrUpdateDynamicTheme_active ext f fx hh1 hv1]
  have hcovCS : ∀ s ∈ ext.docStyles, ext.shouldManage s = true →
      (managerFor (createStaticStyleOverrides ext f fx st1) s).isSome := by
    intro s hs hm
    rw [managerFor_congr (createStaticStyleOverrides_styleManagers ext f fx st1) s]
    exact hcov1 s hs hm
  constructor
  · rw [watchForUpdates_styleManagers, sweep_noop_managers ext hcovCS,
      createStaticStyleOverrides_styleManagers, watchForUpdates_styleManagers]
  · intro c
    rw [watchForUpdates_headElems, sweep_countClass]
    have hstable := createStaticStyleOverrides_count_stable ext f fx hids1
      (by rw [hcnt1]; exact hpresA.1)
      (by rw [hcnt1]; exact hpresA.2.1)
      (by rw [hcnt1]; exact hpresA.2.2.1)
      (by rw [hcnt1]; exact hpresA.2.2.2.1)
      (by rw [hcnt1]; exact hpresA.2.2.2.2.1)
      (by rw [hcnt1]; exact hpresA.2.2.2.2.2)
    rw [hstable c, hst1, watchForUpdates_headElems]

/-! ## Fold lemmas for nodes not in the processed list -/

theorem managerFor_foldl_removeManager_ne {l : List Nat} {st : EngineState} {k : Nat}
    (h : k ∉ l) :
    managerFor (l.foldl (fun acc s => removeManager s acc) st) k = managerFor st k := by
  induction l generalizing st with
  | nil => rfl
  | cons a t ih =>
    rw [List.foldl_cons]
    have hka : k ≠ a := fun hc => h (hc ▸ List.mem_cons_self a t)
    rw [ih (fun hm => h (List.mem_cons_of_mem a hm)), managerFor_removeManager_ne hka]

theorem managerFor_foldl_createManager_ne {l : List Nat} {st : EngineState} {k : Nat}
    (h : k ∉ l) :
    managerFor (l.foldl (fun acc s => createManager s acc) st) k = managerFor st k := by
  induction l generalizing st with
  | nil => rfl
  | cons a t ih =>
    rw [List.foldl_cons]
    have hka : k ≠ a := fun hc => h (hc ▸ List.mem_cons_self a t)
    rw [ih (fun hm => h (List.mem_cons_of_mem a hm)), managerFor_createManager_ne hka]

theorem destroyedLog_foldl_removeManager_ne {l : List Nat} {st : EngineState} {k : Nat}
    (h : k ∉ l) :
    (k ∈ (l.foldl (fun acc s => removeManager s acc) st).destroyedLog ↔
      k ∈ st.destroyedLog) := by
  induction l generalizing st with
  | nil => exact Iff.rfl
  | cons a t ih =>
    rw [List.foldl_cons]
    have hka : k ≠ a := fun hc => h (hc ▸ List.mem_cons_self a t)
    rw [ih (fun hm => h (List.mem_cons_of_mem a hm)), destroyedLog_removeManager_mem hka]

theorem destroyedLog_foldl_createManager (l : List Nat) (st : EngineState) :
    (l.foldl (fun acc s => createManager s acc) st).destroyedLog = st.destroyedLog := by
  obtain ⟨ms, c, h⟩ := foldl_createManager_shape l st
  rw [h]

/-! ## Teardown lemmas -/

theorem destroyedLog_removeManager_mono {st : EngineState} {k : Nat} (el : Nat)
    (h : k ∈ st.destroyedLog) : k ∈ (removeManager el st).destroyedLog := by
  cases hq : managerFor st el with
  | none => rw [removeManager_of_none hq]; exact h
  | some m => rw [removeManager_of_some hq]; simp [h]

theorem destroyedLog_foldl_removeManager_mono {l : List Nat} {st : EngineState} {k : Nat}
    (h : k ∈ st.destroyedLog) :
    k ∈ (l.foldl (fun acc s => removeManager s acc) st).destroyedLog := by
  induction l generalizing st with
  | nil => exact h
  | cons a t ih =>
    rw [List.foldl_cons]
    exact ih (destroyedLog_removeManager_mono a h)

theorem mem_keys_removeManager_ne {st : EngineState} {k el : Nat} (hne : k ≠ el) :
    (k ∈ (removeManager el st).styleManagers.map (·.1) ↔
      k ∈ st.styleManagers.map (·.1)) := by
  rw [← managerFor_isSome_iff, ← managerFor_isSome_iff,
    show managerFor (removeManager el st) k = managerFor st k from
      managerFor_removeManager_ne hne]

theorem foldl_removeManager_all {l : List Nat} {st : EngineState}
    (hall : ∀ p ∈ st.styleManagers, p.1 ∈ l) :
    (l.foldl (fun acc s => removeManager s acc) st).styleManagers = [] := by
  induction l generalizing st with
  | nil =>
    cases hs : st.styleManagers with
    | nil => exact hs
    | cons p t => exact absurd (hall p (hs ▸ List.mem_cons_self p t)) (List.not_mem_nil _)
  | cons a t ih =>
    rw [List.foldl_cons]
    refine ih (fun p hp => ?_)
    cases hq : managerFor st a with
    | some m =>
      rw [removeManager_of_some hq] at hp
      have hp2 := List.mem_filter.mp hp
      have hne : p.1 ≠ a := by simpa using hp2.2
      rcases List.mem_cons.mp (hall p hp2.1) with hc | hc
      · exact absurd hc hne
      · exact hc
    | none =>
      rw [removeManager_of_none hq] at hp
      have hne : p.1 ≠ a := by
        intro hc
        have : a ∈ st.styleManagers.map (·.1) := hc ▸ List.mem_map_of_mem (·.1) hp
        rw [← managerFor_isSome_iff, hq] at this
        exact absurd this (by simp)
      rcases List.mem_cons.mp (hall p hp) with hc | hc
      · exact absurd hc hne
      · exact hc

theorem destroyedLog_foldl_removeManager_covers {l : List Nat} {st : EngineState} :
    ∀ k ∈ l, k ∈ st.styleManagers.map (·.1) →
      k ∈ (l.foldl (fun acc s => removeManager s acc) st).destroyedLog := by
  induction l generalizing st with
  | nil => intro k hk; cases hk
  | cons a t ih =>
    intro k hk hkeys
    rw [List.foldl_cons]
    by_cases hka : k = a
    · subst hka
      have hsome : (managerFor st k).isSome := (managerFor_isSome_iff st k).mpr hkeys
      obtain ⟨m, hm⟩ := Option.isSome_iff_exists.mp hsome
      refine destroyedLog_foldl_removeManager_mono ?_
      rw [removeManager_of_some hm]
      simp
    · rcases List.mem_cons.mp hk with hc | hc
      · exact absurd hc hka
      · exact ih k hc ((mem_keys_removeManager_ne hka).mpr hkeys)

@[simp] theorem cleanDynamicThemeCache_styleManagers (st : EngineState) :
    (cleanDynamicThemeCache st).styleManagers = st.styleManagers := rfl

@[simp] theorem cleanDynamicThemeCache_destroyedLog (st : EngineState) :
    (cleanDynamicThemeCache st).destroyedLog = st.destroyedLog := rfl

@[simp] theorem cleanDynamicThemeCache_varTable (st : EngineState) :
    (cleanDynamicThemeCache st).varTable = st.varTable := rfl

@[simp] theorem cleanDynamicThemeCache_headElems (st : EngineState) :
    (cleanDynamicThemeCache st).headElems = st.headElems := rfl

@[simp] theorem cleanDynamicThemeCache_rootElems (st : EngineState) :
    (cleanDynamicThemeCache st).rootElems = st.rootElems := rfl

@[simp] theorem cleanDynamicThemeCache_loadingStyles (st : EngineState) :
    (cleanDynamicThemeCache st).loadingStyles = st.loadingStyles := rfl

@[simp] theorem cleanDynamicThemeCache_hasHead (st : EngineState) :
    (cleanDynamicThemeCache st).hasHead = st.hasHead := rfl

theorem docRemoveFirstClass_shape (st : EngineState) (cls : String) :
    ∃ hd rt, docRemoveFirstClass st cls = { st with headElems := hd, rootElems := rt } := by
  unfold docRemoveFirstClass
  cases h : querySelectorClass (docElems st) cls
  · exact ⟨st.headElems, st.rootElems, rfl⟩
  · exact ⟨_, _, rfl⟩

@[simp] theorem docRemoveFirstClass_styleManagers (st : EngineState) (cls : String) :
    (docRemoveFirstClass st cls).styleManagers = st.styleManagers := by
  obtain ⟨hd, rt, h⟩ := docRemoveFirstClass_shape st cls
  rw [h]

@[simp] theorem docRemoveFirstClass_destroyedLog (st : EngineState) (cls : String) :
    (docRemoveFirstClass st cls).destroyedLog = st.destroyedLog := by
  obtain ⟨hd, rt, h⟩ := docRemoveFirstClass_shape st cls
  rw [h]

theorem removeSentinelsFromHead_shape (st : EngineState) :
    ∃ hd, removeSentinelsFromHead st = { st with headElems := hd } := by
  unfold removeSentinelsFromHead
  split
  · exact ⟨_, rfl⟩
  · exact ⟨st.headElems, rfl⟩

@[simp] theorem removeSentinelsFromHead_styleManagers (st : EngineState) :
    (removeSentinelsFromHead st).styleManagers = st.styleManagers := by
  obtain ⟨hd, h⟩ := removeSentinelsFromHead_shape st
  rw [h]

@[simp] theorem removeSentinelsFromHead_destroyedLog (st : EngineState) :
    (removeSentinelsFromHead st).destroyedLog = st.destroyedLog := by
  obtain ⟨hd, h⟩ := removeSentinelsFromHead_shape st
  rw [h]

theorem countClass_filter_not (es : List Elem) (c : String) :
    countClass (es.filter (fun e => !e.classes.contains c)) c = 0 := by
  rw [countClass, List.countP_eq_zero]
  intro e he hc
  have h2 := (List.mem_filter.mp he).2
  rw [hc] at h2
  simp at h2

/-- After full teardown, no element anywhere carries the engine class. -/
theorem removeDynamicTheme_zero_tagged (st : EngineState) :
    countClass (removeDynamicTheme st).headElems "darkreader" = 0 ∧
    countClass (removeDynamicTheme st).rootElems "darkreader" = 0 := by
  unfold removeDynamicTheme
  exact ⟨countClass_filter_not _ _, countClass_filter_not _ _⟩

/-- After full teardown, the manager registry is empty. -/
theorem removeDynamicTheme_managers (st : EngineState) :
    (removeDynamicTheme st).styleManagers = [] := by
  unfold removeDynamicTheme
  exact foldl_removeManager_all (fun p hp => List.mem_map_of_mem (·.1) hp)

/-- Full teardown destroys every manager that was registered. -/
theorem removeDynamicTheme_destroys (st : EngineState) :
    ∀ k ∈ st.styleManagers.map (·.1), k ∈ (removeDynamicTheme st).destroyedLog := by
  intro k hk
  have h3 : (removeSentinelsFromHead (docRemoveFirstClass (cleanDynamicThemeCache st)
      "darkreader--fallback")).styleManagers = st.styleManagers := by
    simp
  unfold removeDynamicTheme
  exact destroyedLog_foldl_removeManager_covers k (by rw [h3]; exact hk)
    (by rw [h3]; exact hk)

theorem removeFirstClass_of_none {es : List Elem} {cls : String}
    (h : querySelectorClass es cls = none) : removeFirstClass es cls = es := by
  unfold removeFirstClass
  rw [h]

theorem querySelectorClass_eq_none_of_inactive {es : List Elem} {cls : String}
    (h : ∀ e ∈ es, ¬e.classes.contains cls = true) :
    querySelectorClass es cls = none :=
  List.find?_eq_none.mpr h

set_option maxHeartbeats 1600000 in
/-- Teardown of an inactive state degenerates to the cache/watcher
cleanup: every element lookup misses and is skipped. -/
theorem removeDynamicTheme_inactive {st : EngineState} (h : inactive st) :
    removeDynamicTheme st = cleanDynamicThemeCache st := by
  obtain ⟨hcls, hmgr⟩ := h
  have hmemh : ∀ e ∈ st.headElems, e ∈ docElems st :=
    fun e he => List.mem_append_left _ he
  have hmemr : ∀ e ∈ st.rootElems, e ∈ docElems st :=
    fun e he => List.mem_append_right _ he
  have h2 : docRemoveFirstClass (cleanDynamicThemeCache st) "darkreader--fallback" =
      cleanDynamicThemeCache st := by
    unfold docRemoveFirstClass
    rw [show docElems (cleanDynamicThemeCache st) = docElems st from rfl,
      querySelectorClass_eq_none_of_inactive
        (fun e he hc => (hcls e he _ (by simpa using hc)).2.1 rfl)]
  have h3 : removeSentinelsFromHead (cleanDynamicThemeCache st) =
      cleanDynamicThemeCache st := by
    unfold removeSentinelsFromHead
    split
    · have hce : (cleanDynamicThemeCache st).headElems = st.headElems := rfl
      rw [hce,
        removeFirstClass_of_none (querySelectorClass_eq_none_of_inactive
          (fun e he hc => (hcls e (hmemh e he) _ (by simpa using hc)).2.2.1 rfl)),
        removeFirstClass_of_none (querySelectorClass_eq_none_of_inactive
          (fun e he hc => (hcls e (hmemh e he) _ (by simpa using hc)).2.2.2.1 rfl)),
        removeFirstClass_of_none (querySelectorClass_eq_none_of_inactive
          (fun e he hc => (hcls e (hmemh e he) _ (by simpa using hc)).2.2.2.2.1 rfl)),
        removeFirstClass_of_none (querySelectorClass_eq_none_of_inactive
          (fun e he hc => (hcls e (hmemh e he) _ (by simpa using hc)).2.2.2.2.2.1 rfl)),
        removeFirstClass_of_none (querySelectorClass_eq_none_of_inactive
          (fun e he hc => (hcls e (hmemh e he) _ (by simpa using hc)).2.2.2.2.2.2 rfl))]
      rw [← hce]
    · rfl
  have h4 : (cleanDynamicThemeCache st).styleManagers.map (·.1) = [] := by
    rw [cleanDynamicThemeCache_styleManagers, hmgr]
    rfl
  simp only [removeDynamicTheme]
  rw [h2, h3, h4, List.foldl_nil]
  have h5 : (cleanDynamicThemeCache st).headElems.filter
      (fun e => !e.classes.contains "darkreader") = (cleanDynamicThemeCache st).headElems := by
    refine List.filter_eq_self.mpr (fun e he => ?_)
    cases hcont : e.classes.contains "darkreader" with
    | true => exact absurd rfl (hcls e (hmemh e he) _ (by simpa using hcont)).1
    | false => simp [hcont]
  have h6 : (cleanDynamicThemeCache st).rootElems.filter
      (fun e => !e.classes.contains "darkreader") = (cleanDynamicThemeCache st).rootElems := by
    refine List.filter_eq_self.mpr (fun e he => ?_)
    cases hcont : e.classes.contains "darkreader" with
    | true => exact absurd rfl (hcls e (hmemr e he) _ (by simpa using hcont)).1
    | false => simp [hcont]
  rw [h5, h6]

/-! ## Lemmas about the variable table -/

theorem mapHas_mapSet_mono {m : VarMap} {k : String} (q : String) (v : VarValue)
    (h : mapHas m k = true) : mapHas (mapSet m q v) k = true := by
  unfold mapSet
  split
  · unfold mapHas at h ⊢
    rw [List.any_map]
    refine List.any_eq_true.mpr ?_
    obtain ⟨p, hp, hpe⟩ := List.any_eq_true.mp h
    refine ⟨p, hp, ?_⟩
    simp only [decide_eq_true_eq] at hpe
    simp only [Function.comp_apply]
    by_cases hq : p.1 = q
    · simp only [if_pos hq, decide_eq_true_eq]
      rw [← hq, hpe]
    · simp only [if_neg hq, decide_eq_true_eq]
      exact hpe
  · unfold mapHas at h ⊢
    rw [List.any_append, h, Bool.true_or]

theorem mapHas_mapSet_self (m : VarMap) (k : String) (v : VarValue) :
    mapHas (mapSet m k v) k = true := by
  unfold mapSet
  split
  · next h =>
    unfold mapHas at h ⊢
    rw [List.any_map]
    obtain ⟨p, hp, hpe⟩ := List.any_eq_true.mp h
    refine List.any_eq_true.mpr ⟨p, hp, ?_⟩
    simp only [decide_eq_true_eq] at hpe
    simp only [Function.comp_apply]
    simp [hpe]
  · unfold mapHas
    rw [List.any_append]
    simp [mapHas]

theorem mapHas_foldl_mapSet_mono (l : VarMap) {m : VarMap} {k : String}
    (h : mapHas m k = true) :
    mapHas (l.foldl (fun acc p => mapSet acc p.1 p.2) m) k = true := by
  induction l generalizing m with
  | nil => exact h
  | cons a t ih =>
    rw [List.foldl_cons]
    exact ih (mapHas_mapSet_mono a.1 a.2 h)

theorem mapHas_substPass_mono (ks : List String) {m : VarMap} {k : String}
    (h : mapHas m k = true) :
    mapHas
      (ks.foldl
        (fun acc q =>
          match mapGet acc q with
          | some v => mapSet acc q (replaceCSSVariables v acc)
          | none => acc)
        m) k = true := by
  induction ks generalizing m with
  | nil => exact h
  | cons a t ih =>
    rw [List.foldl_cons]
    refine ih ?_
    cases hq : mapGet m a with
    | some v => exact mapHas_mapSet_mono a _ h
    | none => exact h

/-- `updateVariables` never deletes a key: the table only grows. -/
theorem updateVariables_mapHas_mono (nv : VarMap) {m : VarMap} {k : String}
    (h : mapHas m k = true) : mapHas (updateVariables nv m) k = true := by
  unfold updateVariables
  split
  · exact h
  · exact mapHas_substPass_mono _ (mapHas_foldl_mapSet_mono nv h)

/-! ## Lemmas about loading tokens and the loading set -/

theorem setAdd_self_mem (s : List Nat) (t : Nat) : t ∈ setAdd s t := by
  unfold setAdd
  split
  · next h => simpa using h
  · exact List.mem_append_right _ (List.mem_singleton.mpr rfl)

theorem loadingEnd_not_mem_set {st : EngineState} {t : Nat}
    (h : t ∉ st.loadingStyles) :
    (loadingEnd t st).loadingStyles = st.loadingStyles := by
  have hself : st.loadingStyles.filter (fun x => x ≠ t) = st.loadingStyles := by
    refine List.filter_eq_self.mpr (fun x hx => ?_)
    simp only [decide_eq_true_eq]
    exact fun hc => h (hc ▸ hx)
  simp only [loadingEnd]
  rw [hself]
  split <;> simp

theorem loadingStart_loaded {ext : Ext} {st : EngineState} (t : Nat)
    (h : isPageLoaded st = true) : loadingStart ext t st = some st := by
  unfold loadingStart
  rw [if_pos h]

theorem tokensOK_createManager {st : EngineState} (el : Nat)
    (h : tokensOK st) : tokensOK (createManager el st) := by
  cases hq : managerFor st el with
  | some m => rw [createManager_of_isSome (by simp [hq])]; exact h
  | none =>
    rw [createManager_of_none hq]
    obtain ⟨hle, hnd⟩ := h
    constructor
    · intro p hp
      rcases List.mem_append.mp hp with hp2 | hp2
      · exact Nat.le_succ_of_le (hle p hp2)
      · rw [List.mem_singleton.mp hp2]
    · rw [List.map_append, List.nodup_append]
      refine ⟨hnd, List.nodup_singleton _, ?_⟩
      intro a ha hb
      rw [List.map_singleton, List.mem_singleton] at hb
      subst hb
      obtain ⟨p, hp, hpe⟩ := List.mem_map.mp ha
      have := hle p hp
      rw [hpe] at this
      exact absurd this (by simp)

theorem tokensOK_removeManager {st : EngineState} (el : Nat)
    (h : tokensOK st) : tokensOK (removeManager el st) := by
  cases hq : managerFor st el with
  | none => rw [removeManager_of_none hq]; exact h
  | some m =>
    rw [removeManager_of_some hq]
    obtain ⟨hle, hnd⟩ := h
    constructor
    · intro p hp
      exact hle p (List.mem_of_mem_filter hp)
    · exact List.Nodup.sublist ((List.filter_sublist _).map _) hnd

/-! ## Lemmas about the fallback sentinel's content -/

theorem querySelectorClass_setContentById (es : List Elem) (i : Nat) (s c : String) :
    querySelectorClass (setContentById es i s) c =
      (querySelectorClass es c).map
        (fun e => if e.id = i then { e with content := s } else e) := by
  unfold querySelectorClass setContentById
  induction es with
  | nil => rfl
  | cons x t ih =>
    rw [List.map_cons]
    have hpred : ((if x.id = i then { x with content := s } else x).classes.contains c) =
        x.classes.contains c := by
      split <;> rfl
    by_cases hx : x.classes.contains c = true
    · rw [List.find?_cons_of_pos (p := fun e : Elem => e.classes.contains c) _
          (by show ((if x.id = i then { x with content := s } else x).classes.contains c) = true
              rw [hpred]; exact hx),
        List.find?_cons_of_pos (p := fun e : Elem => e.classes.contains c) t hx]
      rfl
    · rw [List.find?_cons_of_neg (p := fun e : Elem => e.classes.contains c) _
          (by show ¬((if x.id = i then { x with content := s } else x).classes.contains c) = true
              rw [hpred]; exact hx),
        List.find?_cons_of_neg (p := fun e : Elem => e.classes.contains c) t hx]
      exact ih

theorem fallbackContent_cleanFallbackStyle (st : EngineState) :
    fallbackContent (cleanFallbackStyle st) = (fallbackContent st).map (fun _ => "") := by
  unfold cleanFallbackStyle
  cases hq : querySelectorClass st.headElems "darkreader--fallback" with
  | none =>
    unfold fallbackContent
    rw [hq]
    rfl
  | some e =>
    unfold fallbackContent
    show (querySelectorClass (setContentById st.headElems e.id "") _).map _ = _
    rw [querySelectorClass_setContentById, hq]
    simp

theorem docQuery_of_head {st : EngineState} {cls : String} {e : Elem}
    (h : querySelectorClass st.headElems cls = some e) :
    querySelectorClass (docElems st) cls = some e := by
  unfold querySelectorClass docElems at *
  rw [List.find?_append, h]
  rfl

theorem docQuery_none_head_none {st : EngineState} {cls : String}
    (h : querySelectorClass (docElems st) cls = none) :
    querySelectorClass st.headElems cls = none := by
  unfold querySelectorClass docElems at *
  rw [List.find?_append] at h
  cases hh : List.find? (fun e => e.classes.contains cls) st.headElems with
  | none => rfl
  | some e => rw [hh] at h; exact absurd h (by simp [Option.or])

/-! ## Case equations for `loadingEnd`, `loadingStart`, `onReadyStateChange` -/

theorem loadingEnd_clears {st : EngineState} {t : Nat}
    (hready : isPageLoaded st = true)
    (hempty : st.loadingStyles.filter (fun x => x ≠ t) = []) :
    loadingEnd t st = cleanFallbackStyle { st with loadingStyles := [] } := by
  simp only [loadingEnd]
  rw [hempty]
  rw [if_pos (by simpa [isPageLoaded] using hready)]

theorem loadingEnd_no_clear {st : EngineState} {t : Nat}
    (hne : ¬(st.loadingStyles.filter (fun x => x ≠ t) = [] ∧ isPageLoaded st = true)) :
    loadingEnd t st =
      { st with loadingStyles := st.loadingStyles.filter (fun x => x ≠ t) } := by
  simp only [loadingEnd]
  rw [if_neg]
  intro hc
  rw [Bool.and_eq_true, List.isEmpty_iff] at hc
  exact hne ⟨hc.1, by simpa [isPageLoaded] using hc.2⟩

theorem loadingStart_crash {ext : Ext} {st : EngineState} (t : Nat)
    (h : isPageLoaded st = false)
    (hq : querySelectorClass (docElems st) "darkreader--fallback" = none) :
    loadingStart ext t st = none := by
  simp only [loadingStart]
  rw [if_neg (by simp [h])]
  have hq2 : querySelectorClass
      (docElems { st with loadingStyles := setAdd st.loadingStyles t })
      "darkreader--fallback" = none := hq
  rw [hq2]

theorem loadingStart_found_empty {ext : Ext} {st : EngineState} {e : Elem} (t : Nat)
    (h : isPageLoaded st = false)
    (hq : querySelectorClass (docElems st) "darkreader--fallback" = some e)
    (hc : e.content = "") :
    loadingStart ext t st =
      some (docSetContentById { st with loadingStyles := setAdd st.loadingStyles t }
        e.id ext.fallbackNonStrictCSS) := by
  simp only [loadingStart]
  rw [if_neg (by simp [h])]
  have hq2 : querySelectorClass
      (docElems { st with loadingStyles := setAdd st.loadingStyles t })
      "darkreader--fallback" = some e := hq
  rw [hq2]
  dsimp only
  rw [if_pos hc]

theorem loadingStart_found_nonempty {ext : Ext} {st : EngineState} {e : Elem} (t : Nat)
    (h : isPageLoaded st = false)
    (hq : querySelectorClass (docElems st) "darkreader--fallback" = some e)
    (hc : ¬e.content = "") :
    loadingStart ext t st = some { st with loadingStyles := setAdd st.loadingStyles t } := by
  simp only [loadingStart]
  rw [if_neg (by simp [h])]
  have hq2 : querySelectorClass
      (docElems { st with loadingStyles := setAdd st.loadingStyles t })
      "darkreader--fallback" = some e := hq
  rw [hq2]
  dsimp only
  rw [if_neg hc]

theorem onReadyStateChange_not_loaded {st : EngineState}
    (h : isPageLoaded st = false) : onReadyStateChange st = st := by
  unfold onReadyStateChange
  rw [if_pos (by simp [h])]

theorem onReadyStateChange_clears {st : EngineState}
    (h : isPageLoaded st = true) (hempty : st.loadingStyles = []) :
    onReadyStateChange st = cleanFallbackStyle { st with readyListener := false } := by
  unfold onReadyStateChange
  rw [if_neg (by simp [h]), if_pos (by simpa using congrArg List.isEmpty hempty)]

theorem onReadyStateChange_no_clear {st : EngineState}
    (h : isPageLoaded st = true) (hne : st.loadingStyles ≠ []) :
    onReadyStateChange st = { st with readyListener := false } := by
  unfold onReadyStateChange
  rw [if_neg (by simp [h]), if_neg (by simpa [List.isEmpty_iff] using hne)]

@[simp] theorem foldUpdateVariables_visibilityListener (l : List VarMap) (st : EngineState) :
    (foldUpdateVariables l st).visibilityListener = st.visibilityListener := by
  obtain ⟨vt, h⟩ := foldUpdateVariables_shape l st
  rw [h]

theorem sweep_visibilityListener (ext : Ext) (st : EngineState) :
    (createDynamicStyleOverrides ext st).visibilityListener = st.visibilityListener := by
  unfold createDynamicStyleOverrides
  simp only [eligibleStyles_cancelRendering, foldl_createManager_cancelRendering]
  split
  · split <;> simp
  · simp

@[simp] theorem docSetContentById_loadingStyles (st : EngineState) (i : Nat) (s : String) :
    (docSetContentById st i s).loadingStyles = st.loadingStyles := rfl

@[simp] theorem docSetContentById_readyState (st : EngineState) (i : Nat) (s : String) :
    (docSetContentById st i s).readyState = st.readyState := rfl

theorem lookupKey_none_find {l : List (Nat × Manager)} {k : Nat}
    (h : lookupKey l k = none) : l.find? (fun p => p.1 = k) = none := by
  unfold lookupKey at h
  cases hf : l.find? (fun p => decide (p.1 = k)) with
  | none => rfl
  | some p => rw [hf] at h; cases h

/-! ## The loading/fallback gating argument, step by step -/

/-- Any gating-subsystem step that turns the fallback sentinel's content
from non-empty to empty happens with an empty loading set and a loaded
document. -/
theorem loadStep_clear_gating {ext : Ext} {st st2 : EngineState} {ev : LoadEvent}
    (hstep : loadStep ext st ev = some st2)
    (hbefore : fallbackContent st ≠ some "")
    (hafter : fallbackContent st2 = some "") :
    st2.loadingStyles = [] ∧ isPageLoaded st2 = true := by
  cases ev with
  | start t =>
    replace hstep : loadingStart ext t st = some st2 := hstep
    cases hb : isPageLoaded st with
    | true =>
      rw [loadingStart_loaded t hb] at hstep
      have h2 := Option.some.inj hstep
      subst h2
      exact absurd hafter hbefore
    | false =>
      cases hq : querySelectorClass (docElems st) "darkreader--fallback" with
      | none => rw [loadingStart_crash t hb hq] at hstep; cases hstep
      | some e =>
        by_cases hc : e.content = ""
        · rw [loadingStart_found_empty t hb hq hc] at hstep
          have h2 := Option.some.inj hstep
          subst h2
          cases hh : querySelectorClass st.headElems "darkreader--fallback" with
          | none =>
            exfalso
            have hnone : fallbackContent (docSetContentById
                { st with loadingStyles := setAdd st.loadingStyles t }
                e.id ext.fallbackNonStrictCSS) = none := by
              unfold fallbackContent
              show (querySelectorClass (setContentById st.headElems _ _) _).map _ = none
              rw [querySelectorClass_setContentById, hh]
              rfl
            rw [hnone] at hafter
            cases hafter
          | some e2 =>
            have hde := docQuery_of_head hh
            rw [hq] at hde
            have he2 := Option.some.inj hde
            subst he2
            refine absurd ?_ hbefore
            unfold fallbackContent
            rw [hh]
            simp [hc]
        · rw [loadingStart_found_nonempty t hb hq hc] at hstep
          have h2 := Option.some.inj hstep
          subst h2
          exact absurd hafter hbefore
  | finish t =>
    replace hstep : some (loadingEnd t st) = some st2 := hstep
    have h2 := Option.some.inj hstep
    subst h2
    by_cases hcl : st.loadingStyles.filter (fun x => x ≠ t) = [] ∧ isPageLoaded st = true
    · rw [loadingEnd_clears hcl.2 hcl.1]
      refine ⟨by simp, ?_⟩
      show isPageLoaded (cleanFallbackStyle { st with loadingStyles := [] }) = true
      unfold isPageLoaded
      rw [cleanFallbackStyle_readyState]
      exact hcl.2
    · rw [loadingEnd_no_clear hcl] at hafter ⊢
      exact absurd hafter hbefore
  | ready rs =>
    have h2 := Option.some.inj hstep
    by_cases hrl : { st with readyState := rs }.readyListener = true
    · rw [if_pos hrl] at h2
      by_cases hl : isPageLoaded { st with readyState := rs } = true
      · by_cases hempty : ({ st with readyState := rs } : EngineState).loadingStyles = []
        · rw [onReadyStateChange_clears hl hempty] at h2
          subst h2
          refine ⟨by simpa using hempty, ?_⟩
          show isPageLoaded _ = true
          unfold isPageLoaded
          rw [cleanFallbackStyle_readyState]
          exact hl
        · rw [onReadyStateChange_no_clear hl hempty] at h2
          subst h2
          exact absurd hafter hbefore
      · rw [onReadyStateChange_not_loaded (by simpa using hl)] at h2
        subst h2
        exact absurd hafter hbefore
    · rw [if_neg hrl] at h2
      subst h2
      exact absurd hafter hbefore

/-- While a token is outstanding after the step, a non-empty fallback
sentinel keeps its exact content across any gating-subsystem step. -/
theorem loadStep_persist {ext : Ext} {st st2 : EngineState} {ev : LoadEvent} {c : String}
    (hstep : loadStep ext st ev = some st2)
    (hc : fallbackContent st = some c) (hcne : c ≠ "")
    (hout : st2.loadingStyles ≠ []) :
    fallbackContent st2 = some c := by
  cases ev with
  | start t =>
    replace hstep : loadingStart ext t st = some st2 := hstep
    cases hb : isPageLoaded st with
    | true =>
      rw [loadingStart_loaded t hb] at hstep
      have h2 := Option.some.inj hstep
      subst h2
      exact hc
    | false =>
      obtain ⟨e2, hh⟩ : ∃ e2, querySelectorClass st.headElems "darkreader--fallback" = some e2 := by
        unfold fallbackContent at hc
        cases hh : querySelectorClass st.headElems "darkreader--fallback" with
        | none => rw [hh] at hc; cases hc
        | some e2 => exact ⟨e2, rfl⟩
      have hq := docQuery_of_head hh
      have hce2 : e2.content = c := by
        unfold fallbackContent at hc
        rw [hh] at hc
        exact Option.some.inj hc
      have hcne2 : ¬e2.content = "" := by rw [hce2]; exact hcne
      rw [loadingStart_found_nonempty t hb hq hcne2] at hstep
      have h2 := Option.some.inj hstep
      subst h2
      exact hc
  | finish t =>
    replace hstep : some (loadingEnd t st) = some st2 := hstep
    have h2 := Option.some.inj hstep
    subst h2
    by_cases hcl : st.loadingStyles.filter (fun x => x ≠ t) = [] ∧ isPageLoaded st = true
    · exfalso
      apply hout
      rw [loadingEnd_clears hcl.2 hcl.1]
      simp
    · rw [loadingEnd_no_clear hcl]
      exact hc
  | ready rs =>
    have h2 := Option.some.inj hstep
    by_cases hrl : { st with readyState := rs }.readyListener = true
    · rw [if_pos hrl] at h2
      by_cases hl : isPageLoaded { st with readyState := rs } = true
      · by_cases hempty : ({ st with readyState := rs } : EngineState).loadingStyles = []
        · exfalso
          apply hout
          rw [← h2, onReadyStateChange_clears hl hempty]
          simpa using hempty
        · rw [onReadyStateChange_no_clear hl hempty] at h2
          subst h2
          exact hc
      · rw [onReadyStateChange_not_loaded (by simpa using hl)] at h2
        subst h2
        exact hc
    · rw [if_neg hrl] at h2
      subst h2
      exact hc

/-- `loadingStart`, fired before the document is ready against an empty
fallback sentinel in the head, registers its token and populates the
sentinel with the non-strict fallback style. -/
theorem loadStep_populate {ext : Ext} {st st2 : EngineState} (t : Nat)
    (hb : isPageLoaded st = false)
    (hc : fallbackContent st = some "")
    (hstep : loadStep ext st (LoadEvent.start t) = some st2) :
    t ∈ st2.loadingStyles ∧ fallbackContent st2 = some ext.fallbackNonStrictCSS := by
  obtain ⟨e2, hh⟩ : ∃ e2, querySelectorClass st.headElems "darkreader--fallback" = some e2 := by
    unfold fallbackContent at hc
    cases hh : querySelectorClass st.headElems "darkreader--fallback" with
    | none => rw [hh] at hc; cases hc
    | some e2 => exact ⟨e2, rfl⟩
  have hq := docQuery_of_head hh
  have hce2 : e2.content = "" := by
    unfold fallbackContent at hc
    rw [hh] at hc
    exact Option.some.inj hc
  replace hstep : loadingStart ext t st = some st2 := hstep
  rw [loadingStart_found_empty t hb hq hce2] at hstep
  have h2 := Option.some.inj hstep
  subst h2
  constructor
  · rw [docSetContentById_loadingStyles]
    exact setAdd_self_mem st.loadingStyles t
  · unfold fallbackContent
    show (querySelectorClass (setContentById st.headElems _ _) _).map _ = _
    rw [querySelectorClass_setContentById, hh]
    simp

/-- `loadingEnd` for the last outstanding token, with the document
ready, empties the fallback sentinel. -/
theorem loadStep_clear_end {st : EngineState} (t : Nat)
    (hready : isPageLoaded st = true)
    (hlast : st.loadingStyles.filter (fun x => x ≠ t) = [])
    (hex : ∃ c, fallbackContent st = some c) :
    fallbackContent (loadingEnd t st) = some "" := by
  obtain ⟨c, hc⟩ := hex
  rw [loadingEnd_clears hready hlast, fallbackContent_cleanFallbackStyle]
  have : fallbackContent { st with loadingStyles := ([] : List Nat) } = some c := hc
  rw [this]
  rfl

/-- The readiness listener, firing once the document is ready with an
empty loading set, empties the fallback sentinel. -/
theorem loadStep_clear_ready {ext : Ext} {st st2 : EngineState} (rs : ReadyState)
    (hrl : st.readyListener = true)
    (hempty : st.loadingStyles = [])
    (hready : isPageLoaded { st with readyState := rs } = true)
    (hex : ∃ c, fallbackContent st = some c)
    (hstep : loadStep ext st (LoadEvent.ready rs) = some st2) :
    fallbackContent st2 = some "" := by
  obtain ⟨c, hc⟩ := hex
  have h2 := Option.some.inj hstep
  rw [if_pos (show ({ st with readyState := rs } : EngineState).readyListener = true from hrl),
    onReadyStateChange_clears hready (by simpa using hempty)] at h2
  subst h2
  rw [fallbackContent_cleanFallbackStyle]
  have : fallbackContent { { st with readyState := rs } with readyListener := false } =
      some c := hc
  rw [this]
  rfl

/-- In the sweep's no-new-variables branch, the only guard on cleaning
the fallback sentinel is emptiness of the loading set (index.ts lines
108-110): document readiness is neither consulted nor changed. -/
theorem sweep_clears_without_readiness (ext : Ext) (st : EngineState)
    (hvars : ((eligibleStyles ext st).filterMap ext.detailsOf).filter
      (fun vars => vars.length > 0) = [])
    (hload : st.loadingStyles = []) :
    fallbackContent (createDynamicStyleOverrides ext st) =
      (fallbackContent st).map (fun _ => "") ∧
    (createDynamicStyleOverrides ext st).readyState = st.readyState := by
  have hl2 : ((eligibleStyles ext st).foldl (fun acc s => createManager s acc)
      (cancelRendering st)).loadingStyles.isEmpty = true := by
    rw [foldl_createManager_loadingStyles, cancelRendering_loadingStyles, hload]
    rfl
  have hsweep : createDynamicStyleOverrides ext st =
      cleanFallbackStyle ((eligibleStyles ext st).foldl
        (fun acc s => createManager s acc) (cancelRendering st)) := by
    simp only [createDynamicStyleOverrides, eligibleStyles_cancelRendering]
    rw [hvars]
    rw [if_pos (show ([] : List VarMap).isEmpty = true by rfl)]
    rw [if_pos hl2]
  rw [hsweep]
  refine ⟨?_, ?_⟩
  · rw [fallbackContent_cleanFallbackStyle]
    have hhe : ((eligibleStyles ext st).foldl (fun acc s => createManager s acc)
        (cancelRendering st)).headElems = st.headElems := by
      rw [foldl_createManager_headElems, cancelRendering_headElems]
    unfold fallbackContent
    rw [hhe]
  · rw [cleanFallbackStyle_readyState, foldl_createManager_readyState,
      cancelRendering_readyState]

/-! ## Claim theorems -/

/-- C1: after `createStaticStyleOverrides` runs as part of
`createOrUpdateDynamicTheme` with an existing (empty) document head, the
six sentinel style elements are direct children of the head in the order
fallback, text, invert, inline, user-agent, override — NOT in the
claimed order fallback, user-agent, text, invert, inline, override: the
source inserts the text sentinel before `fallbackStyle.nextSibling`
instead of `userAgentStyle.nextSibling`. -/
theorem c1_sentinel_order_bug :
    sentinelClasses (createOrUpdateDynamicTheme sampleExt sampleFilter none
        initState).headElems =
      ["darkreader--fallback", "darkreader--text", "darkreader--invert",
        "darkreader--inline", "darkreader--user-agent", "darkreader--override"] ∧
    sentinelClasses (createOrUpdateDynamicTheme sampleExt sampleFilter none
        initState).headElems ≠
      ["darkreader--fallback", "darkreader--user-agent", "darkreader--text",
        "darkreader--invert", "darkreader--inline", "darkreader--override"] := by
  constructor
  · decide
  · decide

/-- C3: `updateVariables` is a no-op on an empty argument; a non-empty
call merges (overwriting existing keys) and performs exactly one
substitution pass, so `{a: "1px", b: "var(a)"}` resolves `b` to `"1px"`
in one call, while a three-deep chain stays partially unresolved until a
later call performs another pass. -/
theorem c3_updateVariables_single_pass :
    (∀ m : VarMap, updateVariables [] m = m) ∧
    updateVariables [("a", [VarToken.lit "1px"]), ("b", [VarToken.ref "a"])] [] =
      [("a", [VarToken.lit "1px"]), ("b", [VarToken.lit "1px"])] ∧
    mapGet (updateVariables [("a", [VarToken.lit "2px"])] [("a", [VarToken.lit "1px"])]) "a" =
      some [VarToken.lit "2px"] ∧
    mapGet (updateVariables
      [("c", [VarToken.ref "b"]), ("b", [VarToken.ref "a"]), ("a", [VarToken.lit "1px"])]
      []) "c" = some [VarToken.ref "a"] ∧
    mapGet (updateVariables [("a", [VarToken.lit "1px"])]
      (updateVariables
        [("c", [VarToken.ref "b"]), ("b", [VarToken.ref "a"]), ("a", [VarToken.lit "1px"])]
        [])) "c" = some [VarToken.lit "1px"] := by
  refine ⟨fun m => rfl, by decide, by decide, by decide, by decide⟩

/-- C9 counterexample: `cleanDynamicThemeCache` does NOT reset the
variable table to empty — on a state with a one-entry table the table is
unchanged and non-empty after the full cache clean. -/
theorem c9_cache_clean_counterexample :
    (cleanDynamicThemeCache
      { initState with varTable := [("--bg", [VarToken.lit "black"])] }).varTable =
      [("--bg", [VarToken.lit "black"])] ∧
    (cleanDynamicThemeCache
      { initState with varTable := [("--bg", [VarToken.lit "black"])] }).varTable ≠ [] := by
  constructor
  · rfl
  · decide

/-- C9 (amended): during an activation the variable table grows
monotonically — `updateVariables` only adds or overwrites entries, never
deletes — and `cleanDynamicThemeCache` leaves both the variable table
and the already-inserted sentinel elements untouched (no operation of
this module ever empties the table). -/
theorem c9_variable_table_amended :
    (∀ (nv m : VarMap) (k : String), mapHas m k = true →
      mapHas (updateVariables nv m) k = true) ∧
    (∀ st : EngineState, (cleanDynamicThemeCache st).varTable = st.varTable ∧
      (cleanDynamicThemeCache st).headElems = st.headElems) :=
  ⟨fun nv _ _ h => updateVariables_mapHas_mono nv h, fun _ => ⟨rfl, rfl⟩⟩

/-- C9 witness: the monotonicity conjunct applied at a concrete table. -/
theorem c9_variable_table_amended_witness :
    mapHas [("a", [VarToken.lit "1px"])] "a" = true ∧
    mapHas (updateVariables [("b", [VarToken.ref "a"])] [("a", [VarToken.lit "1px"])])
      "a" = true :=
  ⟨by decide, c9_variable_table_amended.1 [("b", [VarToken.ref "a"])]
    [("a", [VarToken.lit "1px"])] "a" (by decide)⟩

/-- C8 counterexample: at a loading document with no fallback sentinel
anywhere, `cleanFallbackStyle` silently skips, but the `loadingStart`
callback dereferences the missing sentinel and throws (modelled as
`none`) — its lookup is NOT existence-checked. -/
theorem c8_unchecked_loadingStart_counterexample :
    loadingStart sampleExt 1 initState = none ∧
    cleanFallbackStyle initState = initState := by
  constructor
  · decide
  · decide

/-- C8 (amended): the fallback lookups inside `cleanFallbackStyle` and
`removeDynamicTheme` are existence-checked and silently skipped when the
element is absent, but `loadingStart` dereferences the fallback sentinel
without a check and fails when the sentinel is absent and the document
is not yet loaded. -/
theorem c8_null_guards_amended :
    (∀ st : EngineState, querySelectorClass st.headElems "darkreader--fallback" = none →
      cleanFallbackStyle st = st) ∧
    (∀ st : EngineState, inactive st → removeDynamicTheme st = cleanDynamicThemeCache st) ∧
    (∀ (ext : Ext) (st : EngineState) (t : Nat), isPageLoaded st = false →
      querySelectorClass (docElems st) "darkreader--fallback" = none →
      loadingStart ext t st = none) := by
  refine ⟨fun st h => ?_, fun st h => removeDynamicTheme_inactive h,
    fun ext st t h1 h2 => loadingStart_crash t h1 h2⟩
  unfold cleanFallbackStyle
  rw [h]

/-- C8 witness: the three guards observed at concrete states. -/
theorem c8_null_guards_amended_witness :
    cleanFallbackStyle initState = initState ∧
    removeDynamicTheme initState = cleanDynamicThemeCache initState ∧
    loadingStart sampleExt 1 initState = none :=
  ⟨c8_null_guards_amended.1 initState (by decide),
   c8_null_guards_amended.2.1 initState (by unfold inactive; decide),
   c8_null_guards_amended.2.2 sampleExt initState 1 (by decide) (by decide)⟩

/-- C7 counterexample: with the document hidden when the head is
available, the engine still builds the static overlays immediately (the
six sentinels are present and the registry/watchers stay untouched),
before any visibility-restored event — the claim that ALL Active-entry
actions, including building the static overlays, are deferred is false. -/
theorem c7_hidden_overlays_counterexample :
    sentinelClasses (createThemeAndWatchForUpdates sampleExt sampleFilter none
        { initState with hidden := true }).headElems =
      ["darkreader--fallback", "darkreader--text", "darkreader--invert",
        "darkreader--inline", "darkreader--user-agent", "darkreader--override"] ∧
    (createThemeAndWatchForUpdates sampleExt sampleFilter none
      { initState with hidden := true }).styleManagers = [] ∧
    (createThemeAndWatchForUpdates sampleExt sampleFilter none
      { initState with hidden := true }).styleChangeWatching = false := by
  refine ⟨by decide, by decide, by decide⟩

/-- C7 (amended): if the document is hidden when the head becomes
available, the engine builds the static overlays immediately but defers
the stylesheet sweep and the watcher arming behind a visibility
listener; the listener fires on the first visibility-restored event,
deregisters itself before running the deferred work, and later
visibility events find no listener. -/
theorem c7_visibility_deferral_amended :
    (∀ (ext : Ext) (f : FilterConfig) (fx : Option DynamicThemeFix) (st : EngineState),
      st.hidden = true →
      createThemeAndWatchForUpdates ext f fx st =
        watchForDocumentVisibility (createStaticStyleOverrides ext f fx st) ∧
      (createThemeAndWatchForUpdates ext f fx st).styleManagers = st.styleManagers ∧
      (createThemeAndWatchForUpdates ext f fx st).styleChangeWatching =
        st.styleChangeWatching ∧
      (createThemeAndWatchForUpdates ext f fx st).inlineWatching = st.inlineWatching ∧
      (createThemeAndWatchForUpdates ext f fx st).readyListener = st.readyListener ∧
      (createThemeAndWatchForUpdates ext f fx st).visibilityListener = true) ∧
    (∀ (ext : Ext) (st : EngineState), st.visibilityListener = true →
      visibilityChangeEvent ext st false =
        watchForUpdates (createDynamicStyleOverrides ext
          (stopWatchingForDocumentVisibility { st with hidden := false })) ∧
      (visibilityChangeEvent ext st false).visibilityListener = false) ∧
    (∀ (ext : Ext) (st : EngineState) (b : Bool), st.visibilityListener = false →
      visibilityChangeEvent ext st b = { st with hidden := b }) := by
  refine ⟨fun ext f fx st hv => ?_, fun ext st hl => ?_, fun ext st b hl => ?_⟩
  · have heq := createThemeAndWatchForUpdates_hidden ext f fx hv
    refine ⟨heq, ?_, ?_, ?_, ?_, ?_⟩ <;> rw [heq] <;> simp [watchForDocumentVisibility]
  · have heq : visibilityChangeEvent ext st false =
        watchForUpdates (createDynamicStyleOverrides ext
          (stopWatchingForDocumentVisibility { st with hidden := false })) := by
      unfold visibilityChangeEvent
      rw [if_pos (show ({ st with hidden := false } : EngineState).visibilityListener =
        true from hl)]
      rfl
    refine ⟨heq, ?_⟩
    rw [heq]
    show (createDynamicStyleOverrides ext _).visibilityListener = false
    rw [sweep_visibilityListener]
    rfl
  · unfold visibilityChangeEvent
    rw [if_neg (by simpa using hl)]

/-- C7 witness: the deferral equations observed at a concrete hidden
activation and the one-shot behaviour of the listener. -/
theorem c7_visibility_deferral_amended_witness :
    (createThemeAndWatchForUpdates sampleExt sampleFilter none
      { initState with hidden := true }).visibilityListener = true ∧
    (visibilityChangeEvent sampleExt (createThemeAndWatchForUpdates sampleExt sampleFilter
      none { initState with hidden := true }) false).visibilityListener = false ∧
    visibilityChangeEvent sampleExt initState true = { initState with hidden := true } :=
  ⟨(c7_visibility_deferral_amended.1 sampleExt sampleFilter none
      { initState with hidden := true } rfl).2.2.2.2.2,
   (c7_visibility_deferral_amended.2.1 sampleExt
      (createThemeAndWatchForUpdates sampleExt sampleFilter none
        { initState with hidden := true }) (by decide)).2,
   c7_visibility_deferral_amended.2.2 sampleExt initState true rfl⟩

/-- C2 counterexample: on a still-loading document whose stylesheets
carry no variables, the activation sweep clears the fallback sentinel
although the document has not reached interactive/complete readiness —
the `cleanFallbackStyle()` call at index.ts lines 108-110 is guarded
only by `loadingStyles.size === 0`, with no `isPageLoaded()` check, so
"cleared only when the loading set is empty AND document readiness is
interactive or complete" fails: the static overrides populate the
sentinel and the sweep of the same activation empties it while the
document is still loading. -/
theorem c2_fallback_clear_unready_counterexample :
    fallbackContent (createStaticStyleOverrides plainExt sampleFilter none initState) =
      some "html e1" ∧
    fallbackContent (createOrUpdateDynamicTheme plainExt sampleFilter none initState) =
      some "" ∧
    isPageLoaded (createOrUpdateDynamicTheme plainExt sampleFilter none initState) =
      false ∧
    (createOrUpdateDynamicTheme plainExt sampleFilter none initState).loadingStyles =
      [] := by
  refine ⟨?_, ?_, ?_, ?_⟩ <;> decide

/-- C2 (amended): the loading-lifecycle callbacks respect the gating
invariant — over `loadingStart` / `loadingEnd` / the `readystatechange`
listener, any step emptying the fallback sentinel's content requires an
empty loading set and a loaded document; while any token is outstanding
(and the document not yet ready) a non-empty sentinel keeps its content;
`loadingStart` on a still-loading document registers its token and
populates an empty sentinel; and the last token's `loadingEnd` with the
document ready, or the readiness listener firing with an empty set,
empties the sentinel — but the activation sweep clears the sentinel
whenever the loading set is empty, without consulting document
readiness. -/
theorem c2_fallback_gating_amended :
    (∀ (ext : Ext) (st st2 : EngineState) (ev : LoadEvent),
      loadStep ext st ev = some st2 →
      fallbackContent st ≠ some "" → fallbackContent st2 = some "" →
      st2.loadingStyles = [] ∧ isPageLoaded st2 = true) ∧
    (∀ (ext : Ext) (st st2 : EngineState) (ev : LoadEvent) (c : String),
      loadStep ext st ev = some st2 →
      fallbackContent st = some c → c ≠ "" →
      st2.loadingStyles ≠ [] → isPageLoaded st2 = false →
      fallbackContent st2 = some c) ∧
    (∀ (ext : Ext) (st st2 : EngineState) (t : Nat),
      isPageLoaded st = false → fallbackContent st = some "" →
      loadStep ext st (LoadEvent.start t) = some st2 →
      t ∈ st2.loadingStyles ∧ fallbackContent st2 = some ext.fallbackNonStrictCSS) ∧
    (∀ (st : EngineState) (t : Nat),
      isPageLoaded st = true → st.loadingStyles.filter (fun x => x ≠ t) = [] →
      (∃ c, fallbackContent st = some c) →
      fallbackContent (loadingEnd t st) = some "") ∧
    (∀ (ext : Ext) (st st2 : EngineState) (rs : ReadyState),
      st.readyListener = true → st.loadingStyles = [] →
      isPageLoaded { st with readyState := rs } = true →
      (∃ c, fallbackContent st = some c) →
      loadStep ext st (LoadEvent.ready rs) = some st2 →
      fallbackContent st2 = some "") ∧
    (∀ (ext : Ext) (st : EngineState),
      ((eligibleStyles ext st).filterMap ext.detailsOf).filter
        (fun vars => vars.length > 0) = [] →
      st.loadingStyles = [] →
      fallbackContent (createDynamicStyleOverrides ext st) =
        (fallbackContent st).map (fun _ => "") ∧
      (createDynamicStyleOverrides ext st).readyState = st.readyState) :=
  ⟨fun _ _ _ _ h1 h2 h3 => loadStep_clear_gating h1 h2 h3,
   fun _ _ _ _ _ h1 h2 h3 h4 _ => loadStep_persist h1 h2 h3 h4,
   fun _ _ _ t h1 h2 h3 => loadStep_populate t h1 h2 h3,
   fun _ t h1 h2 h3 => loadStep_clear_end t h1 h2 h3,
   fun _ _ _ rs h1 h2 h3 h4 h5 => loadStep_clear_ready rs h1 h2 h3 h4 h5,
   fun ext st h1 h2 => sweep_clears_without_readiness ext st h1 h2⟩

/-- C2 witness: each gating conjunct observed on a concrete run —
clearing by the last `loadingEnd` on a loaded document, persistence
under a non-final `loadingEnd`, population by `loadingStart`, clearing
by the readiness listener, and the readiness-unguarded clear by the
sweep on a still-loading document. -/
theorem c2_fallback_gating_amended_witness :
    ((loadingEnd 7 loadState2).loadingStyles = [] ∧
      isPageLoaded (loadingEnd 7 loadState2) = true) ∧
    fallbackContent (loadingEnd 8 loadState3) = some "html e1" ∧
    (3 ∈ startedState.loadingStyles ∧
      fallbackContent startedState = some sampleExt.fallbackNonStrictCSS) ∧
    fallbackContent (loadingEnd 7 loadState2) = some "" ∧
    fallbackContent readiedState = some "" ∧
    (fallbackContent (createDynamicStyleOverrides plainExt loadState5) =
        (fallbackContent loadState5).map (fun _ => "") ∧
      (createDynamicStyleOverrides plainExt loadState5).readyState =
        loadState5.readyState) :=
  ⟨c2_fallback_gating_amended.1 sampleExt loadState2 (loadingEnd 7 loadState2)
      (LoadEvent.finish 7) rfl (by decide) (by decide),
   c2_fallback_gating_amended.2.1 sampleExt loadState3 (loadingEnd 8 loadState3)
      (LoadEvent.finish 8) "html e1" rfl (by decide) (by decide) (by decide) (by decide),
   c2_fallback_gating_amended.2.2.1 sampleExt loadState4 startedState 3 (by decide)
      (by decide) (by decide),
   c2_fallback_gating_amended.2.2.2.1 loadState2 7 (by decide) (by decide)
      ⟨"html e1", by decide⟩,
   c2_fallback_gating_amended.2.2.2.2.1 sampleExt loadState5 readiedState
      ReadyState.interactive (by decide) (by decide) (by decide)
      ⟨"html e1", by decide⟩ (by decide),
   c2_fallback_gating_amended.2.2.2.2.2 plainExt loadState5 (by decide) (by decide)⟩

/-- C4: `createManager` is a no-op on an already-managed node and
`removeManager` on an unmanaged one; both preserve the
one-manager-per-node invariant; and a second `createOrUpdateDynamicTheme`
with the same configuration changes neither the registry nor the
engine-tagged element count. -/
theorem c4_registry_idempotent :
    (∀ (st : EngineState) (el : Nat), (managerFor st el).isSome →
      createManager el st = st) ∧
    (∀ (st : EngineState) (el : Nat), managerFor st el = none →
      removeManager el st = st) ∧
    (∀ (st : EngineState) (el : Nat), registryNodup st →
      registryNodup (createManager el st) ∧ registryNodup (removeManager el st)) ∧
    (∀ (ext : Ext) (f : FilterConfig) (fx : Option DynamicThemeFix) (st : EngineState),
      st.hasHead = true → st.hidden = false → idsOK st →
      (createOrUpdateDynamicTheme ext f fx
          (createOrUpdateDynamicTheme ext f fx st)).styleManagers =
        (createOrUpdateDynamicTheme ext f fx st).styleManagers ∧
      countClass (createOrUpdateDynamicTheme ext f fx
          (createOrUpdateDynamicTheme ext f fx st)).headElems "darkreader" =
        countClass (createOrUpdateDynamicTheme ext f fx st).headElems "darkreader") :=
  ⟨fun _ _ h => createManager_of_isSome h,
   fun _ _ h => removeManager_of_none h,
   fun _ el h => ⟨registryNodup_createManager el h, registryNodup_removeManager el h⟩,
   fun ext f fx _ hh hv hi =>
     ⟨(double_activation_stable ext f fx hh hv hi).1,
      (double_activation_stable ext f fx hh hv hi).2 "darkreader"⟩⟩

/-- C4 witness: the guards and the double-activation stability at the
sample activation. -/
theorem c4_registry_idempotent_witness :
    createManager 10 sampleActiveState = sampleActiveState ∧
    removeManager 999 sampleActiveState = sampleActiveState ∧
    registryNodup (createManager 10 sampleActiveState) ∧
    (createOrUpdateDynamicTheme sampleExt sampleFilter none
        (createOrUpdateDynamicTheme sampleExt sampleFilter none initState)).styleManagers =
      (createOrUpdateDynamicTheme sampleExt sampleFilter none initState).styleManagers :=
  ⟨c4_registry_idempotent.1 sampleActiveState 10 (by decide),
   c4_registry_idempotent.2.1 sampleActiveState 999 (by decide),
   (c4_registry_idempotent.2.2.1 sampleActiveState 10
      (by unfold registryNodup; decide)).1,
   (c4_registry_idempotent.2.2.2 sampleExt sampleFilter none initState rfl rfl
      (by unfold idsOK; decide)).1⟩

/-- C5: in one structural batch, a stylesheet node listed in both the
removed and the created sets whose manager exists keeps exactly that
manager: `removeManager` is not invoked for it (its destroy is never
logged) and it is filtered out of the new-manager set. -/
theorem c5_moved_styles_no_churn :
    ∀ (ext : Ext) (st : EngineState) (created updated removed : List Nat) (n : Nat),
      n ∈ removed → n ∈ created → (managerFor st n).isSome →
      managerFor (handleStyleChanges ext st created updated removed) n = managerFor st n ∧
      (n ∈ (handleStyleChanges ext st created updated removed).destroyedLog ↔
        n ∈ st.destroyedLog) := by
  intro ext st created updated removed n hr hc hm
  have hmoved : n ∈ removed.filter (fun s => created.contains s) :=
    List.mem_filter.mpr ⟨hr, by simpa using hc⟩
  have hnr : n ∉ removed.filter
      (fun s => !(removed.filter (fun s => created.contains s)).contains s) := by
    intro hmem
    have h2 := (List.mem_filter.mp hmem).2
    have h4 : (removed.filter (fun s => created.contains s)).contains n = true := by
      simpa using hmoved
    rw [h4] at h2
    simp at h2
  simp only [handleStyleChanges]
  set st1 := (removed.filter
      (fun s => !(removed.filter (fun s => created.contains s)).contains s)).foldl
    (fun acc s => removeManager s acc) st with hst1
  set newOnes := ((created ++ updated).eraseDups).filter
    (fun s => !(managerFor st1 s).isSome) with hnewOnes
  set st2v := newOnes.foldl (fun acc s => createManager s acc) st1 with hst2
  have hm1 : managerFor st1 n = managerFor st n :=
    managerFor_foldl_removeManager_ne hnr
  have hd1 : n ∈ st1.destroyedLog ↔ n ∈ st.destroyedLog :=
    destroyedLog_foldl_removeManager_ne hnr
  have hnn : n ∉ newOnes := by
    intro hmem
    have h2 := (List.mem_filter.mp hmem).2
    rw [hm1] at h2
    simp [hm] at h2
  have hm2 : managerFor st2v n = managerFor st1 n :=
    managerFor_foldl_createManager_ne hnn
  have hd2 : st2v.destroyedLog = st1.destroyedLog :=
    destroyedLog_foldl_createManager _ _
  split
  · exact ⟨hm2.trans hm1, by rw [hd2]; exact hd1⟩
  · constructor
    · rw [managerFor_congr (show _ = st2v.styleManagers by simp) n]
      exact hm2.trans hm1
    · rw [show (({ foldUpdateVariables ((newOnes.filterMap ext.detailsOf).filter
          (fun vars => vars.length > 0)) st2v with
          pendingRender := true, pendingCallback := false } : EngineState)).destroyedLog =
          st2v.destroyedLog by simp, hd2]
      exact hd1

/-- C5 witness: a batch moving stylesheet 10 (removed and created in the
same batch) leaves its manager and the destroy log untouched. -/
theorem c5_moved_styles_no_churn_witness :
    managerFor (handleStyleChanges sampleExt sampleActiveState [10] [] [10]) 10 =
      managerFor sampleActiveState 10 ∧
    (10 ∈ (handleStyleChanges sampleExt sampleActiveState [10] [] [10]).destroyedLog ↔
      10 ∈ sampleActiveState.destroyedLog) :=
  c5_moved_styles_no_churn sampleExt sampleActiveState [10] [] [10] 10
    (by decide) (by decide) (by decide)

/-- C6: `removeDynamicTheme` leaves zero engine-tagged elements in the
document (head and root), an empty manager registry with every formerly
registered manager destroyed; and on an inactive state it degenerates to
the cache/watcher cleanup (all element lookups miss and are skipped). -/
theorem c6_remove_dynamic_theme :
    (∀ st : EngineState,
      countClass (removeDynamicTheme st).headElems "darkreader" = 0 ∧
      countClass (removeDynamicTheme st).rootElems "darkreader" = 0 ∧
      (removeDynamicTheme st).styleManagers = [] ∧
      ∀ k ∈ st.styleManagers.map (·.1), k ∈ (removeDynamicTheme st).destroyedLog) ∧
    (∀ st : EngineState, inactive st →
      removeDynamicTheme st = cleanDynamicThemeCache st) :=
  ⟨fun st => ⟨(removeDynamicTheme_zero_tagged st).1, (removeDynamicTheme_zero_tagged st).2,
    removeDynamicTheme_managers st, removeDynamicTheme_destroys st⟩,
   fun _ h => removeDynamicTheme_inactive h⟩

/-- C6 witness: teardown of the sample activation leaves no tagged
element and destroys manager 10; teardown of the pristine state is the
cache cleanup alone. -/
theorem c6_remove_dynamic_theme_witness :
    countClass (removeDynamicTheme sampleActiveState).headElems "darkreader" = 0 ∧
    (removeDynamicTheme sampleActiveState).styleManagers = [] ∧
    10 ∈ (removeDynamicTheme sampleActiveState).destroyedLog ∧
    removeDynamicTheme initState = cleanDynamicThemeCache initState :=
  ⟨(c6_remove_dynamic_theme.1 sampleActiveState).1,
   (c6_remove_dynamic_theme.1 sampleActiveState).2.2.1,
   (c6_remove_dynamic_theme.1 sampleActiveState).2.2.2 10 (by decide),
   c6_remove_dynamic_theme.2 initState (by unfold inactive; decide)⟩

/-- C10: a constructing `createManager` mints its loading token by
incrementing the module-wide counter, so stored tokens are bounded by
the counter and pairwise distinct (preserved by both registry
operations); `loadingStart` is a no-op once the document is loaded and
registers its token otherwise; `loadingEnd` for a token not in the set
leaves the set unchanged. -/
theorem c10_loading_tokens :
    (∀ (st : EngineState) (el : Nat), managerFor st el = none →
      (createManager el st).loadingStylesCounter = st.loadingStylesCounter + 1 ∧
      managerFor (createManager el st) el =
        some { elemId := el, token := st.loadingStylesCounter + 1 }) ∧
    (∀ (st : EngineState) (el : Nat), tokensOK st →
      tokensOK (createManager el st) ∧ tokensOK (removeManager el st)) ∧
    (∀ (ext : Ext) (st : EngineState) (t : Nat), isPageLoaded st = true →
      loadingStart ext t st = some st) ∧
    (∀ (ext : Ext) (st st2 : EngineState) (t : Nat), isPageLoaded st = false →
      loadingStart ext t st = some st2 → t ∈ st2.loadingStyles) ∧
    (∀ (st : EngineState) (t : Nat), t ∉ st.loadingStyles →
      (loadingEnd t st).loadingStyles = st.loadingStyles) := by
  refine ⟨fun st el h => ⟨by rw [createManager_of_none h], ?_⟩,
    fun st el h => ⟨tokensOK_createManager el h, tokensOK_removeManager el h⟩,
    fun ext st t h => loadingStart_loaded t h,
    fun ext st st2 t h hsome => ?_,
    fun st t h => loadingEnd_not_mem_set h⟩
  · rw [createManager_of_none h]
    show lookupKey (st.styleManagers ++
      [(el, { elemId := el, token := st.loadingStylesCounter + 1 })]) el = _
    unfold lookupKey
    rw [List.find?_append, lookupKey_none_find h]
    simp [List.find?, Option.or]
  · cases hq : querySelectorClass (docElems st) "darkreader--fallback" with
    | none => rw [loadingStart_crash t h hq] at hsome; cases hsome
    | some e =>
      by_cases hcont : e.content = ""
      · rw [loadingStart_found_empty t h hq hcont] at hsome
        have h2 := Option.some.inj hsome
        rw [← h2, docSetContentById_loadingStyles]
        exact setAdd_self_mem st.loadingStyles t
      · rw [loadingStart_found_nonempty t h hq hcont] at hsome
        have h2 := Option.some.inj hsome
        rw [← h2]
        exact setAdd_self_mem st.loadingStyles t

/-- C10 witness: the token behaviour at the sample states. -/
theorem c10_loading_tokens_witness :
    (createManager 12 sampleActiveState).loadingStylesCounter =
      sampleActiveState.loadingStylesCounter + 1 ∧
    tokensOK (createManager 12 sampleActiveState) ∧
    loadingStart sampleExt 9 loadState2 = some loadState2 ∧
    3 ∈ startedState.loadingStyles ∧
    (loadingEnd 9 loadState1).loadingStyles = loadState1.loadingStyles :=
  ⟨(c10_loading_tokens.1 sampleActiveState 12 (by decide)).1,
   (c10_loading_tokens.2.1 sampleActiveState 12 (by unfold tokensOK; decide)).1,
   c10_loading_tokens.2.2.1 sampleExt loadState2 9 (by decide),
   c10_loading_tokens.2.2.2.1 sampleExt loadState4 startedState 3 (by decide) (by decide),
   c10_loading_tokens.2.2.2.2 loadState1 9 (by decide)⟩

end DarkReader
